import Mathlib

/-!
Verification development for the Cleaner repository
(`src/python_scripts/disk_intelligence_engine.py` and
`src/python_scripts/disk_cleanup_engine.py`).

The Python code is shallowly embedded: pure functions become Lean
functions on `String`/`Int`/`Nat`/lists, SQLite tables become lists of
row structures, and filesystem state and hashing become explicit
environment parameters.  `os.path.realpath` is modelled as the identity
on already-canonical paths: every path-typed value in the model stands
for the canonical (symlink-resolved, normalised) path that the Python
code obtains from `realpath`.  Wall-clock timestamps and float `mtime`
values are modelled as integers (only their ordering is ever used).
-/

/-! ### String utilities

Python string operations are modelled over the underlying character
lists (`String.data`), because the byte-position based operations of
core Lean (`String.isPrefixOf`, `String.trim`, ...) do not reduce under
kernel evaluation.  Lowercasing is modelled for ASCII letters, which is
all the code relies on (paths, extensions and size suffixes).
-/

/-- ASCII lowercasing of one character (Python `str.lower` restricted to
ASCII, which covers every string the engine compares). -/
def lowerChar (c : Char) : Char :=
  if 'A' ≤ c && c ≤ 'Z' then Char.ofNat (c.toNat + 32) else c

/-- Python `s.lower()` on ASCII strings. -/
def strLower (s : String) : String := String.mk (s.data.map lowerChar)

/-- Python `s.startswith(t)`. -/
def strStartsWith (s t : String) : Bool := t.data.isPrefixOf s.data

/-- Python `s.endswith(t)`. -/
def strEndsWith (s t : String) : Bool := t.data.isSuffixOf s.data

/-- Substring occurrence on character lists (Python `needle in hay`). -/
def listContainsSub (needle : List Char) : List Char → Bool
  | [] => needle.isPrefixOf []
  | c :: rest => needle.isPrefixOf (c :: rest) || listContainsSub needle rest

/-- Python `seg in s` (substring containment). -/
def strContains (s seg : String) : Bool := listContainsSub seg.data s.data

/-- Python `s.replace(" ", "")`: drop every space character. -/
def stripSpaces (s : String) : String := String.mk (s.data.filter (fun c => c ≠ ' '))

/-- Characters removed by Python `str.strip()` (ASCII whitespace). -/
def pyWhitespace (c : Char) : Bool := c = ' ' || c = '\t' || c = '\n' || c = '\r'

/-- Python `s.strip()` (ASCII whitespace on both ends). -/
def strTrim (s : String) : String :=
  String.mk (((s.data.dropWhile pyWhitespace).reverse.dropWhile pyWhitespace).reverse)

/-- Python `s.lstrip("/")`. -/
def stripLeadingSlashes (s : String) : String :=
  String.mk (s.data.dropWhile (fun c => c = '/'))

/-- Python `os.path.basename` for canonical paths: the part after the
last `/` (the whole string when it has no slash). -/
def pyBasename (s : String) : String :=
  String.mk ((s.data.reverse.takeWhile (fun c => c ≠ '/')).reverse)

/-- Python `pathlib.Path(name).suffix`: the extension after the last
dot of the final path component, empty when the last dot is the first
or the last character of that component (`".gz"` for `"a.tar.gz"`, `""`
for `"name"`, `".bashrc"` and `"a."`). -/
def pySuffix (name : String) : String :=
  let base := (pyBasename name).data
  let extRev := base.reverse.takeWhile (fun c => c ≠ '.')
  match base.reverse.dropWhile (fun c => c ≠ '.') with
  | [] => ""                -- no dot in the final component
  | _ :: before =>
    -- `before` is what precedes the last dot (reversed); the dot must be
    -- neither the first nor the last character of the component
    if before = [] ∨ extRev = [] then "" else String.mk ('.' :: extRev.reverse)

/-! ### Shared constants and path predicates (`disk_intelligence_engine.py`) -/

/-- `CRITICAL_DELETE_PATHS` (lines 54-69): absolute paths that must never
be deleted.  The Python set is modelled as a list; only membership is
ever used. -/
def CRITICAL_DELETE_PATHS : List String :=
  ["/", "/bin", "/boot", "/dev", "/etc", "/lib", "/lib64", "/proc",
   "/root", "/run", "/sbin", "/sys", "/usr", "/var"]

/-- `is_subpath(path, root)` (lines 131-134): after canonicalisation,
`p == r or p.startswith(r + os.sep)`.  Arguments stand for the already
canonical paths. -/
def is_subpath (path root : String) : Bool :=
  path == root || strStartsWith path (root ++ "/")

/-! ### `FileClassifier` (lines 214-264) -/

/-- `DEFAULT_RULES["media"]`. -/
def mediaExts : List String :=
  [".mp3", ".wav", ".flac", ".aac", ".mp4", ".mkv", ".avi", ".mov",
   ".jpg", ".jpeg", ".png", ".gif", ".webp", ".svg"]

/-- `DEFAULT_RULES["code"]`. -/
def codeExts : List String :=
  [".py", ".js", ".ts", ".tsx", ".jsx", ".java", ".kt", ".c", ".cpp",
   ".h", ".hpp", ".go", ".rs", ".rb", ".php", ".swift", ".sh", ".sql"]

/-- `DEFAULT_RULES["archives"]`. -/
def archiveExts : List String :=
  [".zip", ".tar", ".gz", ".bz2", ".xz", ".7z", ".rar", ".iso"]

/-- `DEFAULT_RULES["documents"]`. -/
def documentExts : List String :=
  [".pdf", ".doc", ".docx", ".xls", ".xlsx", ".ppt", ".pptx", ".txt",
   ".md", ".rtf", ".odt"]

/-- `DEFAULT_RULES["logs"]`. -/
def logsExts : List String := [".log", ".trace", ".out", ".err"]

/-- `DEFAULT_RULES["system"]`. -/
def systemExts : List String := [".so", ".dll", ".sys", ".ko", ".conf", ".service"]

/-- `FileClassifier.DEFAULT_RULES` in dict insertion order, as iterated
by `classify` (no custom rule file). -/
def defaultRules : List (String × List String) :=
  [("media", mediaExts), ("code", codeExts), ("archives", archiveExts),
   ("documents", documentExts), ("logs", logsExts), ("system", systemExts)]

/-- Path segments that divert classification (`classify`, line 254). -/
def cacheSegs : List String := ["/cache/", "/tmp/", "/var/tmp/"]

/-- System path heads checked by `classify` (line 261). -/
def systemHeads : List String := ["/etc/", "/usr/", "/var/lib/", "/bin/", "/sbin/"]

/-- `FileClassifier.classify(path, extension)` (lines 251-264) with the
default rule table. -/
def classify (path extension : String) : String :=
  let p := strLower path
  let ext := strLower extension
  if cacheSegs.any (fun seg => strContains p seg) then
    (if logsExts.contains ext then "logs" else "other")
  else
    match defaultRules.find? (fun r => r.2.contains ext) with
    | some r => r.1
    | none => if systemHeads.any (fun q => strStartsWith p q) then "system" else "other"

/-! ### `RiskScorer` (lines 270-307) -/

/-- `RiskAssessment` dataclass. -/
structure RiskAssessment where
  score : Int
  level : String
  reasons : List String
deriving DecidableEq

/-- `RiskScorer.LOW_HINTS`. -/
def lowHints : List String := ["/cache/", "/tmp/", "/var/tmp/", ".log", ".tmp", ".cache"]

/-- The guard of the +95 branch of `assess` (line 280):
`rp in CRITICAL_DELETE_PATHS or any(is_subpath(rp, p) for p in
CRITICAL_DELETE_PATHS if p != "/")`. -/
def criticalHit (rp : String) : Bool :=
  CRITICAL_DELETE_PATHS.any (fun p => rp == p) ||
    CRITICAL_DELETE_PATHS.any (fun p => p != "/" && is_subpath rp p)

/-- The guard of the −30 branch of `assess` (line 294). -/
def lowHintHit (rp : String) : Bool :=
  lowHints.any (fun h => strContains (strLower rp) h)

/-- `RiskScorer.assess(path, category, is_hidden)` (lines 275-307); `rp`
stands for `os.path.realpath(path)`. -/
def assess (rp category : String) (is_hidden : Bool) : RiskAssessment :=
  let a : Int × List String :=
    if criticalHit rp then (95, ["system-critical path"]) else (0, [])
  let b := if category == "system" then (a.1 + 70, a.2 ++ ["system category"]) else a
  let c := if is_hidden then (b.1 + 25, b.2 ++ ["hidden file/config"]) else b
  let d := if lowHintHit rp then (c.1 - 30, c.2 ++ ["cache/temp/log-like path"]) else c
  let score := max 0 (min 100 d.1)
  let level : String := if score ≥ 70 then "high" else if score ≥ 35 then "medium" else "low"
  let reasons := if d.2.isEmpty then ["no explicit risk triggers"] else d.2
  ⟨score, level, reasons⟩

/-! ### Byte-size parsing and formatting (`disk_cleanup_engine.py` lines
207-233 and `disk_intelligence_engine.py` lines 110-123)

Python computes with IEEE doubles.  The model computes with exact
fractions `num / den`; for every value these functions are applied to in
the claims (decimal literals and quotients by powers of 1024 below
2^53) the double arithmetic is exact, so the fraction equals the float.
The rendering of `f"{x:.2f}"` (round half to even at two decimals) is
modelled exactly on the fraction. -/

/-- Exact fraction standing for a Python float; `den` is positive by
construction at every use site. -/
structure PyFloat where
  num : Int
  den : Nat
deriving DecidableEq

/-- Digit value of an ASCII character. -/
def digitVal (c : Char) : Option Nat :=
  if '0' ≤ c && c ≤ '9' then some (c.toNat - 48) else none

/-- Parse a nonempty all-digit block to its value. -/
def parseDigits (cs : List Char) : Option Nat :=
  if cs = [] then none
  else cs.foldl (fun acc c => do (← acc) * 10 + (← digitVal c)) (some 0)

/-- Parse an optionally signed nonempty digit block (a float exponent). -/
def parseSignedDigits (cs : List Char) : Option Int :=
  match cs with
  | '+' :: rest => (parseDigits rest).map (Int.ofNat)
  | '-' :: rest => (parseDigits rest).map (fun n => -(n : Int))
  | rest => (parseDigits rest).map (Int.ofNat)

/-- Parse the mantissa `intpart[.fracpart]` (at least one digit in
total) to `(value scaled by 10^fracLen, fracLen)`. -/
def parseMantissa (cs : List Char) : Option (Nat × Nat) :=
  match cs.splitOn '.' with
  | [ip] => (parseDigits ip).map (fun v => (v, 0))
  | [ip, fp] =>
    if ip = [] && fp = [] then none
    else if ip = [] then (parseDigits fp).map (fun v => (v, fp.length))
    else if fp = [] then (parseDigits ip).map (fun v => (v, 0))
    else do pure ((← parseDigits ip) * 10 ^ fp.length + (← parseDigits fp), fp.length)
  | _ => none

/-- Python `float(text)` on a finite decimal literal (optionally signed,
optional fraction, optional `e` exponent; the code lowercases its
input first).  `none` models `ValueError`; `inf`/`nan` literals are out
of scope for every claim and also map to `none`. -/
def parseFloat (s : String) : Option PyFloat :=
  let (sign, cs) : Int × List Char :=
    match s.data with
    | '+' :: r => (1, r)
    | '-' :: r => (-1, r)
    | r => (1, r)
  match cs.splitOn 'e' with
  | [m] => (parseMantissa m).map (fun v => ⟨sign * v.1, 10 ^ v.2⟩)
  | [m, ex] => do
    let v ← parseMantissa m
    let e ← parseSignedDigits ex
    if 0 ≤ e then pure ⟨sign * v.1 * 10 ^ e.toNat, 10 ^ v.2⟩
    else pure ⟨sign * v.1, 10 ^ v.2 * 10 ^ (-e).toNat⟩
  | _ => none

/-- Python `int(x)` on a float: truncation toward zero. -/
def pfTrunc (f : PyFloat) : Int := Int.tdiv f.num f.den

/-- Multiplication of a parsed float by an integer unit factor. -/
def pfMulNat (f : PyFloat) (k : Nat) : PyFloat := ⟨f.num * k, f.den⟩

/-- `parse_bytes_human` unit table (dict insertion order). -/
def cleanupUnits : List (String × Nat) :=
  [("kb", 1024), ("mb", 1024 ^ 2), ("gb", 1024 ^ 3), ("tb", 1024 ^ 4), ("b", 1)]

/-- `parse_bytes_human(value)` (`disk_cleanup_engine.py` lines 207-221).
`none` models the `ValueError` that `float` raises on a malformed
number. -/
def parse_bytes_human (value : String) : Option Int :=
  let text := stripSpaces (strLower (strTrim value))
  match cleanupUnits.find? (fun u => strEndsWith text u.1) with
  | some u =>
    let numTxt := String.mk (text.data.take (text.data.length - u.1.data.length))
    let numTxt := if numTxt = "" then "0" else numTxt
    (parseFloat numTxt).map (fun f => pfTrunc (pfMulNat f u.2))
  | none => (parseFloat text).map pfTrunc

/-- `parse_size_to_bytes` unit table (`disk_intelligence_engine.py`
lines 112-118, list order). -/
def intelUnits : List (String × Nat) :=
  [("tb", 1024 ^ 4), ("gb", 1024 ^ 3), ("mb", 1024 ^ 2), ("kb", 1024), ("b", 1)]

/-- `parse_size_to_bytes(value)` (`disk_intelligence_engine.py` lines
110-123). -/
def parse_size_to_bytes (value : String) : Option Int :=
  let text := stripSpaces (strLower (strTrim value))
  match intelUnits.find? (fun u => strEndsWith text u.1) with
  | some u =>
    let numTxt := String.mk (text.data.take (text.data.length - u.1.data.length))
    let numTxt := if numTxt = "" then "0" else numTxt
    (parseFloat numTxt).map (fun f => pfTrunc (pfMulNat f u.2))
  | none => (parseFloat text).map pfTrunc

/-- Round `f * 100` to the nearest integer, ties to even (the rounding
of Python `f"{x:.2f}"`). -/
def roundHalfEven100 (f : PyFloat) : Int :=
  let n := f.num * 100
  let d : Int := f.den
  let q := Int.fdiv n d
  let r := n - q * d
  if 2 * r < d then q else if d < 2 * r then q + 1 else if q % 2 = 0 then q else q + 1

/-- Python `f"{x:.2f}"` for the nonnegative values formatted here. -/
def fix2 (f : PyFloat) : String :=
  let m := (roundHalfEven100 f).toNat
  toString (m / 100) ++ "." ++ (if m % 100 < 10 then "0" ++ toString (m % 100) else toString (m % 100))

/-- `x < 1024.0` on the running value of `format_bytes`. -/
def pfLt1024 (f : PyFloat) : Bool := f.num < 1024 * f.den

/-- `num /= 1024.0` (exact: scaling by a power of two). -/
def pfDiv1024 (f : PyFloat) : PyFloat := ⟨f.num, f.den * 1024⟩

/-- The unit list walked by `format_bytes`. -/
def fmtUnits : List String := ["B", "KB", "MB", "GB", "TB", "PB"]

/-- The `for unit in [...]` loop of `format_bytes` (lines 226-232); the
`[]` case is the dead fall-through `return f"{int(value)} B"` after the
loop. -/
def formatLoop (value : Int) : PyFloat → List String → String
  | _, [] => toString value ++ " B"
  | num, u :: rest =>
    if pfLt1024 num || u == "PB" then
      (if u == "B" then toString (pfTrunc num) ++ " " ++ u else fix2 num ++ " " ++ u)
    else formatLoop value (pfDiv1024 num) rest

/-- `format_bytes(value)` (`disk_cleanup_engine.py` lines 224-233). -/
def format_bytes (value : Int) : String :=
  formatLoop value ⟨max 0 value, 1⟩ fmtUnits

/-! ### `SnapshotStore` rows and `previous_snapshot` (lines 327-448) -/

/-- One `snapshots` row (columns used by the analyzer; `created_at`,
`roots_json` and `duration_sec` are never read by the claims). -/
structure SnapRow where
  id : Nat
  total_files : Nat
  total_bytes : Nat
deriving DecidableEq

/-- `previous_snapshot(snapshot_id)` (lines 433-438):
`SELECT id FROM snapshots WHERE id < ? ORDER BY id DESC LIMIT 1`, i.e.
the greatest id below the given one. -/
def previous_snapshot (snaps : List SnapRow) (sid : Nat) : Option Nat :=
  ((snaps.map (·.id)).filter (· < sid)).max?

/-- `snapshot_row(snapshot_id)` (lines 440-444); `none` models the
`ValueError` raised when the row is missing. -/
def snapshot_row (snaps : List SnapRow) (sid : Nat) : Option SnapRow :=
  snaps.find? (fun r => r.id == sid)

/-! ### `DiskAnalyzer.growth_compare_previous` (lines 806-897) -/

/-- One `files` row as read by the growth queries. -/
structure GFile where
  snapshot_id : Nat
  path : String
  top_dir : String
  size : Nat
  mtime : Int
deriving DecidableEq

/-- Insertion-order grouping with additive values (the SQL
`GROUP BY top_dir, SUM(size)`). -/
def addGroupNat : List (String × Nat) → String → Nat → List (String × Nat)
  | [], k, v => [(k, v)]
  | (k', s) :: rest, k, v =>
    if k' == k then (k', s + v) :: rest else (k', s) :: addGroupNat rest k v

/-- `SELECT top_dir, SUM(size) FROM files WHERE snapshot_id=? GROUP BY
top_dir` as a map in first-seen order. -/
def sumSizesByTopDir (files : List GFile) (sid : Nat) : List (String × Nat) :=
  (files.filter (fun f => f.snapshot_id == sid)).foldl
    (fun g f => addGroupNat g f.top_dir f.size) []

/-- Lookup with default 0 (Python `cur_map.get(d, 0)`). -/
def lookupNat (m : List (String × Nat)) (k : String) : Nat :=
  ((m.find? (fun e => e.1 == k)).map (·.2)).getD 0

/-- The three `_file_churn` counts (lines 863-897).  The float churn
rate derived from them is not modelled. -/
structure ChurnStats where
  added : Nat
  removed : Nat
  changed : Nat
deriving DecidableEq

/-- `_file_churn(prev_snapshot_id)` (lines 863-897): added / removed by
path anti-join, changed by path join with differing size or mtime
(counting join pairs, as the SQL does). -/
def file_churn (files : List GFile) (cur prev : Nat) : ChurnStats :=
  let curF := files.filter (fun f => f.snapshot_id == cur)
  let prevF := files.filter (fun f => f.snapshot_id == prev)
  { added := (curF.filter (fun c => !(prevF.any (fun p => p.path == c.path)))).length
    removed := (prevF.filter (fun p => !(curF.any (fun c => c.path == p.path)))).length
    changed := (curF.flatMap (fun c =>
      prevF.filter (fun p => p.path == c.path && (p.size != c.size || p.mtime != c.mtime)))).length }

/-- The fields of the `growth_compare_previous` report that carry data
(lines 850-861); human-readable strings are formatting of these. -/
structure GrowthReport where
  previous : Nat
  current_total : Nat
  previous_total : Nat
  delta : Int
  folder_changes : List (String × Int)
  churn : ChurnStats
deriving DecidableEq

/-- `growth_compare_previous()` (lines 806-861).  `none` is the
`has_previous=False` early return (or a missing snapshot row).  The
union `set(cur_map) | set(prev_map)` iterates in unspecified hash
order in Python; the model fixes first-seen order, which no claim
depends on (the list is then sorted by absolute delta, descending,
`folder_level_changes` truncation to 200 included). -/
def growth_compare_previous (snaps : List SnapRow) (files : List GFile) (sid : Nat) :
    Option GrowthReport :=
  match previous_snapshot snaps sid with
  | none => none
  | some prev =>
    match snapshot_row snaps sid, snapshot_row snaps prev with
    | some curRow, some prevRow =>
      let curMap := sumSizesByTopDir files sid
      let prevMap := sumSizesByTopDir files prev
      let allDirs := curMap.map (·.1) ++
        (prevMap.map (·.1)).filter (fun d => !(curMap.any (fun e => e.1 == d)))
      let dirGrowth := (allDirs.map
        (fun d => (d, (lookupNat curMap d : Int) - (lookupNat prevMap d : Int)))).filter
          (fun x => x.2 != 0)
      let sorted := List.insertionSort (fun a b : String × Int => |b.2| ≤ |a.2|) dirGrowth
      some { previous := prev
             current_total := curRow.total_bytes
             previous_total := prevRow.total_bytes
             delta := (curRow.total_bytes : Int) - (prevRow.total_bytes : Int)
             folder_changes := sorted.take 200
             churn := file_churn files sid prev }
    | _, _ => none

/-! ### `DiskAnalyzer.largest_files` (lines 604-624)

The SQL is `SELECT path, size, mtime, category FROM files WHERE
snapshot_id=? ORDER BY size DESC LIMIT ?`.  SQLite guarantees only the
`ORDER BY` keys, so the query is embedded as a relation: the output is
any size-descending arrangement of the snapshot's rows, truncated. -/

/-- One `files` row as read by `largest_files`. -/
structure LRow where
  snapshot_id : Nat
  path : String
  size : Nat
  mtime : Int
  category : String
deriving DecidableEq

/-- `largest_files(limit)`: `out` is a possible result of the query. -/
def largest_files (files : List LRow) (sid limit : Nat) (out : List LRow) : Prop :=
  ∃ ordered : List LRow,
    (files.filter (fun f => f.snapshot_id == sid)).Perm ordered ∧
    ordered.Pairwise (fun a b => b.size ≤ a.size) ∧
    out = ordered.take limit

/-! ### `DuplicateDetector.find_duplicates` (lines 1051-1155)

Phase 1 (the SQL size-bucket query and the candidate fetch) produces the
candidate list; the claims quantify over an arbitrary candidate list, so
the model takes it as input together with the candidate ceiling
truncation (`candidates[:limit_candidate_groups]`).  Hashing is the
environment: `headDigest` models `_hash_partial` and `fullDigest` models
`_hash_full`, with `none` standing for a hash error. -/

/-- One candidate row (`path`, `size`, `mtime`). -/
structure DupEntry where
  path : String
  size : Nat
  mtime : Int
deriving DecidableEq

/-- Strict Python string comparison (code-point lexicographic). -/
def lexLtB : List Char → List Char → Bool
  | [], [] => false
  | [], _ :: _ => true
  | _ :: _, [] => false
  | a :: as, b :: bs =>
    if a.toNat < b.toNat then true
    else if b.toNat < a.toNat then false
    else lexLtB as bs

/-- The sort key order of `sorted(group, key=lambda x: (x["mtime"],
x["path"]))`: lexicographic on (mtime, path). -/
def memOrd (a b : DupEntry) : Prop :=
  a.mtime < b.mtime ∨ (a.mtime = b.mtime ∧ lexLtB b.path.data a.path.data = false)

instance memOrd.instDecidableRel : DecidableRel memOrd := fun a b => by
  unfold memOrd; infer_instance

/-- `DuplicateCluster` dataclass (lines 203-211). -/
structure DuplicateCluster where
  cluster_id : String
  size_each : Nat
  file_count : Nat
  potential_waste : Nat
  keep_path : String
  remove_paths : List String
deriving DecidableEq

/-- Insertion-order grouping (Python `defaultdict(list)` keyed by a
hashable key, iterated in key insertion order). -/
def addGroup {K V : Type} [BEq K] : List (K × List V) → K → V → List (K × List V)
  | [], k, v => [(k, [v])]
  | (k', vs) :: rest, k, v =>
    if k' == k then (k', vs ++ [v]) :: rest else (k', vs) :: addGroup rest k v

/-- Dict assignment `d[k] = v` on an insertion-ordered association
list (later assignment overwrites in place). -/
def setAssoc {K V : Type} [BEq K] : List (K × V) → K → V → List (K × V)
  | [], k, v => [(k, v)]
  | (k', v') :: rest, k, v =>
    if k' == k then (k', v) :: rest else (k', v') :: setAssoc rest k v

/-- The data carried by the `find_duplicates` report (human-readable
strings and the SQL-phase statistics are derived elsewhere). -/
structure DupReport where
  cluster_count : Nat
  potential_waste_bytes : Nat
  clusters : List DuplicateCluster
  errorPaths : List String
deriving DecidableEq

/-- The candidate ceiling truncation
(`candidates[:limit_candidate_groups]`, lines 1089-1090). -/
def dupCands (candidates : List DupEntry) (limit : Nat) : List DupEntry :=
  if limit < candidates.length then candidates.take limit else candidates

/-- `path_meta = {c["path"]: c for c in candidates}` (line 1093): the
last candidate with the given path. -/
def dupMeta (cands : List DupEntry) (p : String) : Option DupEntry :=
  cands.reverse.find? (fun c => c.path == p)

/-- Phase 2 (lines 1094-1102): partial hashes of all candidates in
input order, grouped by `(size, digest)` in key insertion order; the
second component collects the error paths in order. -/
def dupPhaseTwo (cands : List DupEntry) (headDigest : String → Option String) :
    List ((Nat × String) × List DupEntry) × List String :=
  cands.foldl
    (fun acc c =>
      match dupMeta cands c.path with
      | none => acc
      | some m =>
        match headDigest c.path with
        | some dg =>
          if dg = "" then (acc.1, acc.2 ++ [c.path])
          else (addGroup acc.1 (m.size, dg) m, acc.2)
        | none => (acc.1, acc.2 ++ [c.path])) ([], [])

/-- `flat_full` (lines 1105-1106): members of multi-member partial
groups, in group order. -/
def dupFlatFull (cands : List DupEntry) (headDigest : String → Option String) :
    List DupEntry :=
  (((dupPhaseTwo cands headDigest).1.filter (fun g => 1 < g.2.length)).map (·.2)).flatten

/-- Phase 3 (lines 1108-1113): `full_digest_by_path` as an assignment
map (later assignment overwrites) plus the error paths. -/
def dupPhaseThree (flatFull : List DupEntry) (fullDigest : String → Option String) :
    List (String × String) × List String :=
  flatFull.foldl
    (fun acc c =>
      match fullDigest c.path with
      | some dg =>
        if dg = "" then (acc.1, acc.2 ++ [c.path])
        else (setAssoc acc.1 c.path dg, acc.2)
      | none => (acc.1, acc.2 ++ [c.path])) ([], [])

/-- `by_full` (lines 1115-1119): members grouped by their full digest,
in digest first-seen order. -/
def dupByFull (candidates : List DupEntry) (limit : Nat)
    (headDigest fullDigest : String → Option String) :
    List (String × List DupEntry) :=
  let cands := dupCands candidates limit
  let flatFull := dupFlatFull cands headDigest
  let fdMap := fun p => ((dupPhaseThree flatFull fullDigest).1.find? (fun e => e.1 == p)).map (·.2)
  flatFull.foldl
    (fun g c =>
      match fdMap c.path with
      | some d => if d = "" then g else addGroup g d c
      | none => g) []

/-- The cluster built from one full-digest group (lines 1124-1143). -/
def mkCluster (digest : String) (grp : List DupEntry) : DuplicateCluster :=
  let gs := List.insertionSort memOrd grp
  let keep := gs.headD ⟨"", 0, 0⟩
  { cluster_id := String.mk (digest.data.take 16)
    size_each := keep.size
    file_count := gs.length
    potential_waste := keep.size * (gs.length - 1)
    keep_path := keep.path
    remove_paths := gs.tail.map (·.path) }

/-- The cluster list before the final waste sort (lines 1122-1143):
groups with fewer than two members are dropped. -/
def dupRawClusters (byFull : List (String × List DupEntry)) : List DuplicateCluster :=
  byFull.foldl
    (fun cl g => if g.2.length < 2 then cl else cl ++ [mkCluster g.1 g.2]) []

/-- `find_duplicates` from the candidate list on (lines 1090-1155). -/
def find_duplicates (candidates : List DupEntry) (limit : Nat)
    (headDigest fullDigest : String → Option String) : DupReport :=
  let cands := dupCands candidates limit
  let stepTwo := dupPhaseTwo cands headDigest
  let flatFull := dupFlatFull cands headDigest
  let stepThree := dupPhaseThree flatFull fullDigest
  let clusters := List.insertionSort
    (fun a b : DuplicateCluster => b.potential_waste ≤ a.potential_waste)
    (dupRawClusters (dupByFull candidates limit headDigest fullDigest))
  { cluster_count := clusters.length
    potential_waste_bytes := (clusters.map (·.potential_waste)).sum
    clusters := clusters
    errorPaths := (stepTwo.2 ++ stepThree.2).take 200 }

/-! ### `CleanupEngine` (lines 1357-1522)

`execute` is modelled as a pure function of the inputs and an explicit
environment: the snapshot's `files` rows, and which filesystem calls
raise.  Its observable behaviour is the ordered list of database writes
and the list of filesystem operations.  The summary-counter dictionary
that `execute` returns is derived bookkeeping over the same outcomes
and is not modelled; `action_id` (a timestamp plus random hex) is a
parameter.  All paths stand for their canonical forms. -/

/-- Columns of a `files` row read by `execute` (line 1433). -/
structure FileRow where
  path : String
  size : Nat
  extension : String
  is_hidden : Bool
  category : String
deriving DecidableEq

/-- `CleanupPolicy` dataclass (lines 188-193). -/
structure CleanupPolicy where
  dry_run : Bool := true
  force_high_risk : Bool := false
  quarantine_mode : Bool := true
  confirm : Bool := false
deriving DecidableEq

/-- One `cleanup_items` row (schema lines 371-384). -/
structure ItemRow where
  action_id : String
  path : String
  status : String
  risk_level : String
  risk_score : Int
  reason : String
  quarantine_path : Option String
  error : Option String
deriving DecidableEq

/-- One `quarantine_manifest` row (schema lines 387-393). -/
structure ManifestRow where
  action_id : String
  original_path : String
  quarantine_path : String
deriving DecidableEq

/-- One `cleanup_actions` row (schema lines 362-369; `created_at` and
`details_json` omitted: wall clock and JSON of the inputs). -/
structure ActionRow where
  action_id : String
  snapshot_id : Nat
  mode : String
  dry_run : Bool
deriving DecidableEq

/-- A database write performed by `execute`, in order. -/
inductive DbWrite where
  | actionW (a : ActionRow)
  | itemW (i : ItemRow)
  | manifestW (m : ManifestRow)
deriving DecidableEq

/-- A filesystem mutation performed by `execute`. -/
inductive FsOp where
  | moveOp (src dst : String)
  | deleteOp (path : String)
deriving DecidableEq

/-- The path a filesystem operation acts on (the moved or deleted
file). -/
def FsOp.source : FsOp → String
  | .moveOp src _ => src
  | .deleteOp p => p

/-- Environment of one `execute` call. -/
structure CleanupEnv where
  files : List FileRow
  mkdirFails : String → Bool
  moveRaises : String → Bool
  deleteRaises : String → Bool

/-- `APP_NAME` constant. -/
def APP_NAME : String := "disk_intel"

/-- `_move_to_quarantine` target path (lines 1505-1515): primary
quarantine directory, or the `/tmp` fallback when the first `mkdir`
raises `OSError`. -/
def quarantineTarget (env : CleanupEnv) (qdir actionId rp : String) : String :=
  let rel := stripLeadingSlashes rp
  if env.mkdirFails rp then
    "/tmp/" ++ APP_NAME ++ "/quarantine/" ++ actionId ++ "/" ++ rel
  else qdir ++ "/" ++ actionId ++ "/" ++ rel

/-- `_record_cleanup_item` (lines 1486-1503) as a row value. -/
def record_cleanup_item (aid rp status level : String) (score : Int) (reason : String)
    (qp err : Option String) : ItemRow :=
  ⟨aid, rp, status, level, score, reason, qp, err⟩

/-- The metadata `execute` derives for one target (lines 1433-1440):
the `files` row when present (`SELECT ... LIMIT 1`, i.e. the first
matching row), otherwise the filename-derived fallbacks. -/
def targetMeta (env : CleanupEnv) (rp : String) : String × Bool :=
  let row := env.files.find? (fun r => r.path == rp)
  let ext := match row with
    | some r => r.extension
    | none => strLower (pySuffix rp)
  let hidden := match row with
    | some r => r.is_hidden
    | none => strStartsWith (pyBasename rp) "."
  let category := match row with
    | some r => r.category
    | none => classify rp ext
  (category, hidden)

/-- The risk-gated tail of one loop iteration (lines 1448-1481): the
branches taken once a target has passed the allowed-roots and
protected-path checks, given its risk assessment. -/
def cleanupRiskBranch (env : CleanupEnv) (qdir aid : String) (policy : CleanupPolicy)
    (rp : String) (risk : RiskAssessment) : List DbWrite × List FsOp :=
  let reasonTxt := String.intercalate ";" risk.reasons
  if risk.level == "high" && !policy.force_high_risk then
    ([.itemW (record_cleanup_item aid rp "skipped" risk.level risk.score "high_risk_requires_force" none none)], [])
  else if policy.dry_run then
    ([.itemW (record_cleanup_item aid rp "dry-run" risk.level risk.score reasonTxt none none)], [])
  else if policy.quarantine_mode then
    if env.moveRaises rp then
      ([.itemW (record_cleanup_item aid rp "failed" risk.level risk.score reasonTxt none (some "exception"))], [])
    else
      let qp := quarantineTarget env qdir aid rp
      ([.manifestW ⟨aid, rp, qp⟩,
        .itemW (record_cleanup_item aid rp "quarantined" risk.level risk.score reasonTxt (some qp) none)],
       [.moveOp rp qp])
  else
    if env.deleteRaises rp then
      ([.itemW (record_cleanup_item aid rp "failed" risk.level risk.score reasonTxt none (some "exception"))], [])
    else
      ([.itemW (record_cleanup_item aid rp "deleted" risk.level risk.score reasonTxt none none)], [.deleteOp rp])

/-- One iteration of the `for p in paths` loop of `execute`
(lines 1426-1482): the database writes and filesystem operations for a
single target `rp` (its canonical path). -/
def cleanupStep (env : CleanupEnv) (qdir aid : String) (policy : CleanupPolicy)
    (roots : List String) (rp : String) : List DbWrite × List FsOp :=
  if !(roots.any (fun root => is_subpath rp root)) then
    ([.itemW (record_cleanup_item aid rp "skipped" "high" 100 "outside_allowed_roots" none none)], [])
  else if CRITICAL_DELETE_PATHS.contains rp then
    ([.itemW (record_cleanup_item aid rp "skipped" "high" 100 "critical_path_protection" none none)], [])
  else
    cleanupRiskBranch env qdir aid policy rp
      (assess rp (targetMeta env rp).1 (targetMeta env rp).2)

/-- Result of one `execute` call: database writes in order, filesystem
operations in order. -/
structure ExecResult where
  transcript : List DbWrite
  fsOps : List FsOp
deriving DecidableEq

/-- `CleanupEngine.execute(paths, mode, policy, allowed_roots)`
(lines 1397-1484).  The `cleanup_actions` row is inserted first; then
each target is processed in order.  `paths` and `allowed_roots` stand
for canonical paths (`realpath` is applied in the code). -/
def execute (env : CleanupEnv) (qdir aid : String) (sid : Nat) (paths : List String)
    (mode : String) (policy : CleanupPolicy) (allowed_roots : List String) : ExecResult :=
  { transcript := .actionW ⟨aid, sid, mode, policy.dry_run⟩ ::
      (paths.map (fun p => (cleanupStep env qdir aid policy allowed_roots p).1)).flatten
    fsOps := (paths.map (fun p => (cleanupStep env qdir aid policy allowed_roots p).2)).flatten }

/-- The item rows of a transcript, in order. -/
def itemsOf (t : List DbWrite) : List ItemRow :=
  t.filterMap (fun w => match w with | .itemW i => some i | _ => none)

/-- The manifest rows of a transcript. -/
def manifestsOf (t : List DbWrite) : List ManifestRow :=
  t.filterMap (fun w => match w with | .manifestW m => some m | _ => none)

/-- The action rows of a transcript. -/
def actionsOf (t : List DbWrite) : List ActionRow :=
  t.filterMap (fun w => match w with | .actionW a => some a | _ => none)

/-! ### `FileScanner` and `Engine.scan` (lines 455-568 and 1688-1694)

The filesystem is the environment: `isdir` answers `os.path.isdir` and
`children` answers `os.scandir` (entries in directory order).  Stat and
enumeration errors are not modelled (an error-free filesystem; no claim
concerns the error entries).  `top_dir` and `permissions` of a stored
row are omitted; `create_snapshot` / `finalize_snapshot` are reflected
by the snapshot id parameter and the result totals.  The explicit DFS
stack of the code is modelled with the stack top at the list head and a
fuel argument for termination (the code's loop runs until the stack
empties). -/

/-- One `os.scandir` entry: flags as observed under the configured
`follow_symlinks` behaviour, plus the stat fields the scanner stores. -/
structure ScanEntry where
  name : String
  entryIsDir : Bool
  entryIsFile : Bool
  size : Nat
  mtime : Int
  entryIsSymlink : Bool
deriving DecidableEq

/-- The filesystem as the scanner observes it. -/
structure ScanFS where
  isdir : String → Bool
  children : String → List ScanEntry

/-- `ScanConfig` dataclass (lines 177-183) with the default skip sets
(`DEFAULT_SKIP_PREFIXES`, `DEFAULT_SKIP_NAMES`). -/
structure ScanCfg where
  roots : List String
  follow_symlinks : Bool := false
  skipHeads : List String := ["/proc", "/sys", "/dev", "/run", "/snap"]
  skipNames : List String := [".git", "__pycache__", ".mypy_cache", ".pytest_cache", "node_modules/.cache"]
  include_hidden : Bool := true

/-- `FileScanner._should_skip_path` (lines 466-471); the two skip sets
are the only configuration it reads. -/
def shouldSkipPath (skipHeads skipNames : List String) (path : String) : Bool :=
  skipHeads.any (fun p => path == p || strStartsWith path (p ++ "/")) ||
    skipNames.contains (pyBasename path)

/-- `os.scandir` entry path (`entry.path`): directory joined with the
entry name. -/
def joinPath (dir name : String) : String := dir ++ "/" ++ name

/-- One stored `files` row (insert at lines 529-541; `top_dir` and
`permissions` omitted). -/
structure ScanRow where
  snapshot_id : Nat
  path : String
  dir_path : String
  size : Nat
  extension : String
  mtime : Int
  is_hidden : Bool
  is_symlink : Bool
  category : String
deriving DecidableEq

/-- Enumeration of one directory (the `for entry in it` body,
lines 494-544): produces the file rows of this directory and the
subdirectories pushed onto the stack, in discovery order. -/
def scanDirStep (skipHeads skipNames : List String) (include_hidden : Bool)
    (fs : ScanFS) (sid : Nat) (current : String) :
    List ScanRow × List String :=
  (fs.children current).foldl
    (fun acc e =>
      let full := joinPath current e.name
      if shouldSkipPath skipHeads skipNames full then acc
      else if !include_hidden && strStartsWith e.name "." then acc
      else if e.entryIsDir then (acc.1, acc.2 ++ [full])
      else if !e.entryIsFile then acc
      else
        let ext := strLower (pySuffix e.name)
        (acc.1 ++ [{ snapshot_id := sid
                     path := full
                     dir_path := current
                     size := e.size
                     extension := ext
                     mtime := e.mtime
                     is_hidden := strStartsWith e.name "."
                     is_symlink := e.entryIsSymlink
                     category := classify full ext }], acc.2))
    ([], [])

/-- The `while stack` loop (lines 487-551): stack top at the head; the
code pushes discovered directories in order and pops the most recent
one.  Fuel bounds the iteration count (the loop terminates when the
stack empties). -/
def scanLoop (skipHeads skipNames : List String) (include_hidden : Bool)
    (fs : ScanFS) (sid : Nat) : Nat → List String → List ScanRow
  | 0, _ => []
  | _, [] => []
  | fuel + 1, current :: rest =>
    if shouldSkipPath skipHeads skipNames current then
      scanLoop skipHeads skipNames include_hidden fs sid fuel rest
    else
      let step := scanDirStep skipHeads skipNames include_hidden fs sid current
      step.1 ++ scanLoop skipHeads skipNames include_hidden fs sid fuel (step.2.reverse ++ rest)

/-- The scan result fields a caller observes (`duration` and the error
list are not modelled). -/
structure ScanResult where
  snapshot_id : Nat
  roots : List String
  rows : List ScanRow
  total_files : Nat
  total_bytes : Nat
deriving DecidableEq

/-- `FileScanner.scan_to_store(store, snapshot_id)` (lines 473-568):
roots are canonicalised (identity here), roots that are not directories
are dropped (line 482), each remaining root is scanned unless the skip
sets exclude it, and the snapshot is finalized with the accumulated
totals. -/
def scan_to_store (cfg : ScanCfg) (fs : ScanFS) (sid fuel : Nat) : ScanResult :=
  let roots := cfg.roots.filter fs.isdir
  let rows := roots.flatMap
    (fun root => if shouldSkipPath cfg.skipHeads cfg.skipNames root then []
      else scanLoop cfg.skipHeads cfg.skipNames cfg.include_hidden fs sid fuel [root])
  { snapshot_id := sid
    roots := roots
    rows := rows
    total_files := rows.length
    total_bytes := (rows.map (·.size)).sum }

/-- `Engine.scan(roots, follow_symlinks, include_hidden)`
(lines 1688-1694): builds the config, creates the snapshot (the id is
the parameter) and runs the scanner.  No validation of the requested
roots happens on this path. -/
def engine_scan (fs : ScanFS) (roots : List String) (follow_symlinks include_hidden : Bool)
    (sid fuel : Nat) : ScanResult :=
  scan_to_store { roots := roots, follow_symlinks := follow_symlinks,
                  include_hidden := include_hidden } fs sid fuel

/-! ### Spec-side predicates and concrete witnesses used in claims -/

/-- The protection condition as the spec words it: the canonical path
equals a protected root or lies under one (prefix match followed by a
directory separator). -/
def protectedRoot (rp : String) : Prop :=
  ∃ r ∈ CRITICAL_DELETE_PATHS, rp = r ∨ strStartsWith rp (r ++ "/") = true

instance protectedRoot.instDecidable (rp : String) : Decidable (protectedRoot rp) := by
  unfold protectedRoot; infer_instance

/-- The category the extension table alone assigns to an extension
(first rule table containing the lowercased extension). -/
def extLookup (extension : String) : Option String :=
  (defaultRules.find? (fun r => r.2.contains (strLower extension))).map (·.1)

/-- The claim's intended order for `largest_files` output: size
descending, ties by path ascending (code-point order). -/
def sizePathOrd (a b : LRow) : Prop :=
  b.size < a.size ∨ (b.size = a.size ∧ lexLtB b.path.data a.path.data = false)

instance sizePathOrd.instDecidableRel : DecidableRel sizePathOrd := fun a b => by
  unfold sizePathOrd; infer_instance

/-- A cleanup environment with an empty `files` table and no
filesystem failures (used to instantiate universally quantified
theorems at concrete inputs). -/
def envTriv : CleanupEnv :=
  ⟨[], fun _ => false, fun _ => false, fun _ => false⟩

/-- The default `CleanupPolicy()` (dry-run, no force, quarantine). -/
def polDefault : CleanupPolicy := {}

/-- A concrete filesystem for the scan claims: `/d` and `/etc` are
directories, `/nodir` is not; each directory holds one regular file. -/
def fsC6 : ScanFS :=
  ⟨fun d => d == "/d" || d == "/etc",
   fun d =>
     if d = "/d" then [⟨"f.txt", false, true, 10, 5, false⟩]
     else if d = "/etc" then [⟨"passwd", false, true, 3, 1, false⟩]
     else []⟩

/-! ## Helper lemmas -/

theorem lexLtB_irrefl : ∀ a : List Char, lexLtB a a = false := by
  intro a
  induction a with
  | nil => rfl
  | cons x xs ih => simp [lexLtB, ih]

theorem lexLtB_trans : ∀ {a b c : List Char},
    lexLtB a b = true → lexLtB b c = true → lexLtB a c = true := by
  intro a
  induction a with
  | nil =>
    intro b c hab hbc
    cases b with
    | nil => simpa [lexLtB] using hab
    | cons y ys =>
      cases c with
      | nil => simpa [lexLtB] using hbc
      | cons z zs => simp [lexLtB]
  | cons x xs ih =>
    intro b c hab hbc
    cases b with
    | nil => simp [lexLtB] at hab
    | cons y ys =>
      cases c with
      | nil => simp [lexLtB] at hbc
      | cons z zs =>
        simp only [lexLtB] at hab hbc ⊢
        split_ifs at hab hbc ⊢ with h1 h2 h3 h4 h5 h6 <;>
          first
          | rfl
          | omega
          | (exact ih hab hbc)
          | (exfalso; omega)

theorem lexLtB_conn : ∀ {a b : List Char},
    lexLtB a b = false → lexLtB b a = false → a = b := by
  intro a
  induction a with
  | nil =>
    intro b hab _
    cases b with
    | nil => rfl
    | cons y ys => simp [lexLtB] at hab
  | cons x xs ih =>
    intro b hab hba
    cases b with
    | nil => simp [lexLtB] at hba
    | cons y ys =>
      simp only [lexLtB] at hab hba
      split_ifs at hab hba with h1 h2 <;> try omega
      have hn : x.toNat = y.toNat := by omega
      have hxy : x = y := Char.ext (UInt32.ext hn)
      have : xs = ys := ih hab hba
      simp [hxy, this]

theorem lexLtB_asymm {a b : List Char} (h : lexLtB a b = true) : lexLtB b a = false := by
  by_contra hc
  have hba : lexLtB b a = true := by
    cases hx : lexLtB b a with
    | false => exact absurd hx hc
    | true => rfl
  have := lexLtB_trans h hba
  rw [lexLtB_irrefl] at this
  exact Bool.false_ne_true this

theorem memOrd_total : ∀ a b : DupEntry, memOrd a b ∨ memOrd b a := by
  intro a b
  rcases lt_trichotomy a.mtime b.mtime with h | h | h
  · exact Or.inl (Or.inl h)
  · by_cases hp : lexLtB b.path.data a.path.data = false
    · exact Or.inl (Or.inr ⟨h, hp⟩)
    · have ht : lexLtB b.path.data a.path.data = true := by
        cases hx : lexLtB b.path.data a.path.data with
        | false => exact absurd hx hp
        | true => rfl
      exact Or.inr (Or.inr ⟨h.symm, lexLtB_asymm ht⟩)
  · exact Or.inr (Or.inl h)

theorem memOrd_trans : ∀ a b c : DupEntry, memOrd a b → memOrd b c → memOrd a c := by
  intro a b c hab hbc
  rcases hab with h1 | ⟨h1, hp1⟩
  · rcases hbc with h2 | ⟨h2, _⟩
    · exact Or.inl (h1.trans h2)
    · exact Or.inl (h2 ▸ h1)
  · rcases hbc with h2 | ⟨h2, hp2⟩
    · exact Or.inl (h1 ▸ h2)
    · refine Or.inr ⟨h1.trans h2, ?_⟩
      by_contra hc
      have hca : lexLtB c.path.data a.path.data = true := by
        cases hx : lexLtB c.path.data a.path.data with
        | false => exact absurd hx hc
        | true => rfl
      cases hx : lexLtB b.path.data c.path.data with
      | true =>
        have := lexLtB_trans hx hca
        rw [hp1] at this
        exact Bool.false_ne_true this
      | false =>
        have heq : b.path.data = c.path.data := lexLtB_conn hx hp2
        rw [← heq, hp1] at hca
        exact Bool.false_ne_true hca

/-! ## Claim C7: classification order -/

/-- Claim C7 counterexample: `.jpg` is in the media extension table,
yet a file whose path contains the `/cache/` segment is classified
`other`, so extension lookup is not applied first. -/
theorem classify_extension_not_first_cex :
  extLookup ".jpg" = some "media" ∧
  strContains (strLower "/home/u/cache/a.jpg") "/cache/" = true ∧
  classify "/home/u/cache/a.jpg" ".jpg" = "other" ∧
  classify "/home/u/cache/a.jpg" ".jpg" ≠ "media" := by decide

/-- Claim C7 (amended): the cache/tmp path heuristic is applied before
extension lookup: a path containing a cache/tmp segment is classified
`logs` or `other` regardless of the extension tables, and extension
lookup decides the category only for paths without such a segment. -/
theorem classify_cache_heuristic_first (path extension : String) :
  (cacheSegs.any (fun seg => strContains (strLower path) seg) = true →
     classify path extension =
       (if logsExts.contains (strLower extension) then "logs" else "other")) ∧
  (cacheSegs.any (fun seg => strContains (strLower path) seg) = false →
     ∀ cat, extLookup extension = some cat → classify path extension = cat) := by
  constructor
  · intro h
    simp [classify, h]
  · intro h cat hcat
    cases hfind : defaultRules.find? (fun r => r.2.contains (strLower extension)) with
    | none => rw [extLookup, hfind] at hcat; simp at hcat
    | some r =>
      rw [extLookup, hfind] at hcat
      simp only [Option.map_some'] at hcat
      unfold classify
      rw [if_neg (by simp [h])]
      rw [hfind]
      show r.1 = cat
      exact Option.some.inj hcat

/-- Claim C7 amended-theorem witness at a concrete input. -/
theorem classify_cache_heuristic_first_witness :
  (cacheSegs.any (fun seg => strContains (strLower "/home/u/pics/a.jpg") seg) = false) ∧
  extLookup ".JPG" = some "media" ∧
  classify "/home/u/pics/a.jpg" ".JPG" = "media" :=
  ⟨by decide, by decide,
   (classify_cache_heuristic_first "/home/u/pics/a.jpg" ".JPG").2 (by decide) "media" (by decide)⟩

/-! ## Claim C2: risk scoring formula -/

theorem criticalHit_iff (rp : String) (hcanon : strStartsWith rp "//" = false) :
    criticalHit rp = true ↔ protectedRoot rp := by
  unfold criticalHit protectedRoot is_subpath
  simp only [Bool.or_eq_true, List.any_eq_true, Bool.and_eq_true, beq_iff_eq, bne_iff_ne]
  constructor
  · rintro (⟨r, hr, heq⟩ | ⟨r, hr, _, hsub⟩)
    · exact ⟨r, hr, Or.inl heq⟩
    · exact ⟨r, hr, hsub⟩
  · rintro ⟨r, hr, hcase⟩
    rcases hcase with heq | hpre
    · exact Or.inl ⟨r, hr, heq⟩
    · right
      refine ⟨r, hr, ?_, Or.inr hpre⟩
      intro hroot
      rw [hroot] at hpre
      have h2 : ("/" : String) ++ "/" = "//" := rfl
      rw [h2, hcanon] at hpre
      exact Bool.false_ne_true hpre

theorem assess_score_eval (rp category : String) (hidden : Bool) :
    (assess rp category hidden).score =
      max 0 (min 100 ((if criticalHit rp then (95 : Int) else 0) +
        (if category == "system" then 70 else 0) +
        (if hidden then 25 else 0) -
        (if lowHintHit rp then 30 else 0))) := by
  cases h1 : criticalHit rp <;> cases h2 : category == "system" <;>
    cases hidden <;> cases h4 : lowHintHit rp <;> simp [assess, h1, h2, h4]

theorem assess_level_eval (rp category : String) (hidden : Bool) :
    (assess rp category hidden).level =
      (if 70 ≤ (assess rp category hidden).score then "high"
       else if 35 ≤ (assess rp category hidden).score then "medium" else "low") := rfl

theorem assess_level_iffs (rp category : String) (hidden : Bool) :
    ((assess rp category hidden).level = "high" ↔ 70 ≤ (assess rp category hidden).score) ∧
    ((assess rp category hidden).level = "medium" ↔
      35 ≤ (assess rp category hidden).score ∧ (assess rp category hidden).score < 70) ∧
    ((assess rp category hidden).level = "low" ↔ (assess rp category hidden).score < 35) := by
  rw [assess_level_eval]
  by_cases h70 : 70 ≤ (assess rp category hidden).score
  · rw [if_pos h70]
    refine ⟨⟨fun _ => h70, fun _ => rfl⟩,
      ⟨fun h => absurd h (by decide), fun h => absurd h70 (by omega)⟩,
      ⟨fun h => absurd h (by decide), fun h => absurd h70 (by omega)⟩⟩
  · rw [if_neg h70]
    by_cases h35 : 35 ≤ (assess rp category hidden).score
    · rw [if_pos h35]
      refine ⟨⟨fun h => absurd h (by decide), fun h => absurd h h70⟩,
        ⟨fun _ => ⟨h35, by omega⟩, fun _ => rfl⟩,
        ⟨fun h => absurd h (by decide), fun h => absurd h35 (by omega)⟩⟩
    · rw [if_neg h35]
      refine ⟨⟨fun h => absurd h (by decide), fun h => absurd h h70⟩,
        ⟨fun h => absurd h (by decide), fun h => absurd h.1 h35⟩,
        ⟨fun _ => by omega, fun _ => rfl⟩⟩

/-- Claim C2: for every input, the risk score is the clamped sum of the
four increments (+95 protected, +70 system category, +25 hidden, −30
cache/temp/log hint) and the level is determined by the 70/35
thresholds on the final score.  The hypothesis restricts to canonical
paths (outputs of `realpath` never start with a doubled separator),
under which the code's protected-root test coincides with the spec's
"equals or lies under a protected root". -/
theorem riskScorer_assess_spec (rp category : String) (hidden : Bool)
    (hcanon : strStartsWith rp "//" = false) :
    (assess rp category hidden).score =
      max 0 (min 100 ((if protectedRoot rp then (95 : Int) else 0) +
        (if category = "system" then 70 else 0) +
        (if hidden then 25 else 0) -
        (if lowHintHit rp then 30 else 0))) ∧
    ((assess rp category hidden).level = "high" ↔ 70 ≤ (assess rp category hidden).score) ∧
    ((assess rp category hidden).level = "medium" ↔
      35 ≤ (assess rp category hidden).score ∧ (assess rp category hidden).score < 70) ∧
    ((assess rp category hidden).level = "low" ↔ (assess rp category hidden).score < 35) := by
  have hiff := criticalHit_iff rp hcanon
  refine ⟨?_, assess_level_iffs rp category hidden⟩
  rw [assess_score_eval]
  by_cases hp : protectedRoot rp
  · simp [hiff.mpr hp, hp, beq_iff_eq]
  · have hc : criticalHit rp = false := by
      cases hx : criticalHit rp with
      | false => rfl
      | true => exact absurd (hiff.mp hx) hp
    simp [hc, hp, beq_iff_eq]

/-- Claim C2 witness: `/etc/passwd` is under the protected root `/etc`,
category `other`, not hidden: score 95, level `high`. -/
theorem riskScorer_assess_spec_witness :
    strStartsWith "/etc/passwd" "//" = false ∧
    ((assess "/etc/passwd" "other" false).score =
      max 0 (min 100 ((if protectedRoot "/etc/passwd" then (95 : Int) else 0) +
        (if ("other" : String) = "system" then 70 else 0) +
        (if false then 25 else 0) -
        (if lowHintHit "/etc/passwd" then 30 else 0))) ∧
    ((assess "/etc/passwd" "other" false).level = "high" ↔
      70 ≤ (assess "/etc/passwd" "other" false).score) ∧
    ((assess "/etc/passwd" "other" false).level = "medium" ↔
      35 ≤ (assess "/etc/passwd" "other" false).score ∧
        (assess "/etc/passwd" "other" false).score < 70) ∧
    ((assess "/etc/passwd" "other" false).level = "low" ↔
      (assess "/etc/passwd" "other" false).score < 35)) :=
  ⟨by decide, riskScorer_assess_spec "/etc/passwd" "other" false (by decide)⟩

/-! ## Claim C5: byte parsing and formatting -/

theorem fix2_shape (f : PyFloat) :
    ∃ hd tl : String, fix2 f = hd ++ "." ++ tl ∧ tl.length = 2 := by
  refine ⟨toString ((roundHalfEven100 f).toNat / 100),
    (if (roundHalfEven100 f).toNat % 100 < 10 then
       "0" ++ toString ((roundHalfEven100 f).toNat % 100)
     else toString ((roundHalfEven100 f).toNat % 100)), rfl, ?_⟩
  have h : (roundHalfEven100 f).toNat % 100 < 100 := Nat.mod_lt _ (by norm_num)
  revert h
  generalize (roundHalfEven100 f).toNat % 100 = n
  intro h
  interval_cases n <;> decide

theorem formatLoop_fix2 (units : List String) :
    ∀ (num : PyFloat) (value : Int), units ≠ [] → units.getLastD "" = "PB" →
      (∀ u ∈ units, u ≠ "B") →
      ∃ f u, u ∈ units ∧ formatLoop value num units = fix2 f ++ " " ++ u := by
  induction units with
  | nil => intro _ _ h; exact absurd rfl h
  | cons u rest ih =>
    intro num value _ hlast hnb
    by_cases hc : (pfLt1024 num || (u == "PB")) = true
    · refine ⟨num, u, List.mem_cons_self u rest, ?_⟩
      unfold formatLoop
      rw [if_pos hc, if_neg]
      intro hb
      exact hnb u (List.mem_cons_self u rest) (beq_iff_eq.mp hb)
    · have hrest : rest ≠ [] := by
        intro hre
        have hu : (u == "PB") = false := by
          cases hx : (u == "PB") with
          | false => rfl
          | true => exact absurd (by rw [hx, Bool.or_true]) hc
        rw [hre] at hlast
        rw [List.getLastD_cons] at hlast
        simp at hlast
        rw [hlast] at hu
        simp at hu
      have hlast' : rest.getLastD "" = "PB" := by
        cases rest with
        | nil => exact absurd rfl hrest
        | cons r rs =>
          rw [List.getLastD_cons, List.getLastD_cons] at hlast
          rw [List.getLastD_cons]
          exact hlast
      obtain ⟨f, u', hu', heq⟩ := ih (pfDiv1024 num) value hrest hlast'
        (fun x hx => hnb x (List.mem_cons_of_mem u hx))
      refine ⟨f, u', List.mem_cons_of_mem u hu', ?_⟩
      unfold formatLoop
      rw [if_neg]
      · exact heq
      · intro hcc
        exact hc hcc

theorem format_bytes_small (v : Int) (h0 : 0 ≤ v) (h1 : v < 1024) :
    format_bytes v = toString v ++ " B" := by
  have hm : (max 0 v) = v := max_eq_right h0
  have hcond : (pfLt1024 ⟨max 0 v, 1⟩ || ("B" == "PB")) = true := by
    simp [pfLt1024, hm]
    omega
  unfold format_bytes fmtUnits
  unfold formatLoop
  have hbb : (("B" : String) == "B") = true := by decide
  rw [if_pos hcond, if_pos hbb]
  show toString (pfTrunc ⟨max 0 v, 1⟩) ++ " " ++ "B" = toString v ++ " B"
  rw [String.append_assoc]
  show toString (pfTrunc ⟨max 0 v, 1⟩) ++ " B" = toString v ++ " B"
  have ht : pfTrunc ⟨max 0 v, 1⟩ = v := by
    show Int.tdiv (max 0 v) ((1 : Nat) : Int) = v
    rw [hm]
    exact Int.tdiv_one v
  rw [ht]

theorem format_bytes_large (v : Int) (h : 1024 ≤ v) :
    ∃ f u, u ∈ (["KB", "MB", "GB", "TB", "PB"] : List String) ∧
      format_bytes v = fix2 f ++ " " ++ u := by
  have hm : (max 0 v) = v := max_eq_right (by omega)
  have hcond : (pfLt1024 ⟨max 0 v, 1⟩ || ("B" == "PB")) = false := by
    simp [pfLt1024, hm]
    omega
  unfold format_bytes fmtUnits
  unfold formatLoop
  rw [if_neg (by rw [hcond]; exact Bool.false_ne_true)]
  exact formatLoop_fix2 ["KB", "MB", "GB", "TB", "PB"] (pfDiv1024 ⟨max 0 v, 1⟩) v
    (by simp) (by rfl) (by decide)

/-- Claim C5: `parse_bytes("1GB") = 1073741824` (in both engines'
parsers), `format_bytes(parse_bytes("500MB")) = "500.00 MB"`, and the
formatter renders the bare `B` unit as an integer and every larger
binary unit with exactly two decimal places. -/
theorem bytes_roundtrip_spec :
    parse_bytes_human "1GB" = some 1073741824 ∧
    parse_size_to_bytes "1GB" = some 1073741824 ∧
    (parse_bytes_human "500MB").map format_bytes = some "500.00 MB" ∧
    (∀ v : Int, 0 ≤ v → v < 1024 → format_bytes v = toString v ++ " B") ∧
    (∀ v : Int, 1024 ≤ v →
      ∃ f u, u ∈ (["KB", "MB", "GB", "TB", "PB"] : List String) ∧
        format_bytes v = fix2 f ++ " " ++ u ∧
        ∃ hd tl : String, fix2 f = hd ++ "." ++ tl ∧ tl.length = 2) := by
  refine ⟨by decide, by decide, by decide, format_bytes_small, ?_⟩
  intro v hv
  obtain ⟨f, u, hu, heq⟩ := format_bytes_large v hv
  exact ⟨f, u, hu, heq, fix2_shape f⟩

/-- Claim C5 witness: the universally quantified formatter clauses at
concrete inputs 100 and 2048. -/
theorem bytes_roundtrip_spec_witness :
    ((0 : Int) ≤ 100 ∧ (100 : Int) < 1024 ∧ format_bytes 100 = toString (100 : Int) ++ " B") ∧
    ((1024 : Int) ≤ 2048 ∧
      ∃ f u, u ∈ (["KB", "MB", "GB", "TB", "PB"] : List String) ∧
        format_bytes 2048 = fix2 f ++ " " ++ u ∧
        ∃ hd tl : String, fix2 f = hd ++ "." ++ tl ∧ tl.length = 2) :=
  ⟨⟨by decide, by decide, bytes_roundtrip_spec.2.2.2.1 100 (by decide) (by decide)⟩,
   ⟨by decide, bytes_roundtrip_spec.2.2.2.2 2048 (by decide)⟩⟩

/-! ## Claim C3: growth baseline selection -/

/-- Claim C3 counterexample: with snapshots `1` (zero totals, i.e. in
progress or aborted) and `2`, the growth comparison for snapshot 2 uses
snapshot 1 as its baseline; zero-total rows are not skipped. -/
theorem growth_zero_totals_baseline_cex :
    previous_snapshot [⟨1, 0, 0⟩, ⟨2, 3, 100⟩] 2 = some 1 ∧
    snapshot_row [⟨1, 0, 0⟩, ⟨2, 3, 100⟩] 1 = some ⟨1, 0, 0⟩ ∧
    (⟨1, 0, 0⟩ : SnapRow).total_files = 0 ∧ (⟨1, 0, 0⟩ : SnapRow).total_bytes = 0 ∧
    (growth_compare_previous [⟨1, 0, 0⟩, ⟨2, 3, 100⟩] [] 2).map (·.previous) = some 1 := by
  decide

/-- Claim C3 (amended): `previous_snapshot` returns the greatest
snapshot id below the given one with no filter on totals, and
`growth_compare_previous` uses exactly that id as its baseline, even
when that snapshot's totals are zero. -/
theorem previous_snapshot_no_totals_filter (snaps : List SnapRow) (sid : Nat) :
    (∀ p, previous_snapshot snaps sid = some p ↔
       (p ∈ snaps.map (·.id) ∧ p < sid ∧
         ∀ q ∈ snaps.map (·.id), q < sid → q ≤ p)) ∧
    (∀ (files : List GFile) (rep : GrowthReport),
       growth_compare_previous snaps files sid = some rep →
       previous_snapshot snaps sid = some rep.previous) := by
  constructor
  · intro p
    unfold previous_snapshot
    rw [List.max?_eq_some_iff (fun a => le_refl a) (fun a b => max_choice a b)
      (fun _ _ _ => Nat.max_le)]
    simp only [List.mem_filter, decide_eq_true_eq]
    constructor
    · rintro ⟨⟨hm, hlt⟩, hall⟩
      exact ⟨hm, hlt, fun q hq hqlt => hall q ⟨hq, hqlt⟩⟩
    · rintro ⟨hm, hlt, hall⟩
      exact ⟨⟨hm, hlt⟩, fun q hq => hall q hq.1 hq.2⟩
  · intro files rep h
    unfold growth_compare_previous at h
    split at h
    · exact absurd h (by simp)
    · rename_i prev hprev
      split at h
      · rw [hprev]
        exact congrArg some (congrArg GrowthReport.previous (Option.some.inj h))
      · exact absurd h (by simp)

/-- Claim C3 amended-theorem witness at a concrete store. -/
theorem previous_snapshot_no_totals_filter_witness :
    (previous_snapshot [⟨1, 0, 0⟩, ⟨2, 3, 100⟩] 2 = some 1 ↔
       (1 ∈ ([⟨1, 0, 0⟩, ⟨2, 3, 100⟩] : List SnapRow).map (·.id) ∧ 1 < 2 ∧
         ∀ q ∈ ([⟨1, 0, 0⟩, ⟨2, 3, 100⟩] : List SnapRow).map (·.id), q < 2 → q ≤ 1)) ∧
    (growth_compare_previous [⟨1, 0, 0⟩, ⟨2, 3, 100⟩] [] 2 =
       some ⟨1, 100, 0, 100, [], ⟨0, 0, 0⟩⟩ ∧
     previous_snapshot [⟨1, 0, 0⟩, ⟨2, 3, 100⟩] 2 =
       some (⟨1, 100, 0, 100, [], ⟨0, 0, 0⟩⟩ : GrowthReport).previous) :=
  ⟨(previous_snapshot_no_totals_filter [⟨1, 0, 0⟩, ⟨2, 3, 100⟩] 2).1 1,
   by decide,
   (previous_snapshot_no_totals_filter [⟨1, 0, 0⟩, ⟨2, 3, 100⟩] 2).2 []
     ⟨1, 100, 0, 100, [], ⟨0, 0, 0⟩⟩ (by decide)⟩

/-! ## Claim C8: largest_files ordering -/

/-- Claim C8 counterexample: the query orders by size only; with two
equal-size rows, the output that lists path `"b"` before `"a"` is a
possible result, and it is not ordered with the path-ascending
tiebreak the claim asserts. -/
theorem largest_files_no_path_tiebreak_cex :
    largest_files [⟨1, "a", 5, 0, "other"⟩, ⟨1, "b", 5, 0, "other"⟩] 1 2
      [⟨1, "b", 5, 0, "other"⟩, ⟨1, "a", 5, 0, "other"⟩] ∧
    ¬ ([⟨1, "b", 5, 0, "other"⟩, ⟨1, "a", 5, 0, "other"⟩] : List LRow).Pairwise sizePathOrd := by
  constructor
  · exact ⟨[⟨1, "b", 5, 0, "other"⟩, ⟨1, "a", 5, 0, "other"⟩], by decide, by decide, rfl⟩
  · decide

/-- Claim C8 (amended): `largest_files(limit)` returns the top `limit`
rows of the snapshot in size-descending order — every returned row is
at least as large as every row left out — but the order among rows of
equal size is whatever the query produced; no path tiebreak is
requested. -/
theorem largest_files_sorted_topk (files : List LRow) (sid limit : Nat) (out : List LRow)
    (h : largest_files files sid limit out) :
    out.Pairwise (fun a b => b.size ≤ a.size) ∧
    out.length = min limit ((files.filter (fun f => f.snapshot_id == sid)).length) ∧
    ∃ rest : List LRow,
      (files.filter (fun f => f.snapshot_id == sid)).Perm (out ++ rest) ∧
      ∀ a ∈ out, ∀ b ∈ rest, b.size ≤ a.size := by
  obtain ⟨ordered, hperm, hsort, hout⟩ := h
  subst hout
  refine ⟨List.Pairwise.sublist (List.take_sublist _ _) hsort, ?_, ?_⟩
  · rw [List.length_take, hperm.length_eq]
  · refine ⟨ordered.drop limit, ?_, ?_⟩
    · rw [List.take_append_drop]
      exact hperm
    · intro a ha b hb
      have hpa : List.Pairwise (fun a b => b.size ≤ a.size)
          (ordered.take limit ++ ordered.drop limit) := by
        rw [List.take_append_drop]
        exact hsort
      exact (List.pairwise_append.mp hpa).2.2 a ha b hb

/-- Claim C8 amended-theorem witness at a concrete table. -/
theorem largest_files_sorted_topk_witness :
    largest_files [⟨1, "a", 7, 0, "x"⟩, ⟨1, "b", 5, 0, "x"⟩] 1 1 [⟨1, "a", 7, 0, "x"⟩] ∧
    (([⟨1, "a", 7, 0, "x"⟩] : List LRow).Pairwise (fun a b => b.size ≤ a.size) ∧
     ([⟨1, "a", 7, 0, "x"⟩] : List LRow).length =
       min 1 ((([⟨1, "a", 7, 0, "x"⟩, ⟨1, "b", 5, 0, "x"⟩] : List LRow).filter
         (fun f => f.snapshot_id == 1)).length) ∧
     ∃ rest : List LRow,
       (([⟨1, "a", 7, 0, "x"⟩, ⟨1, "b", 5, 0, "x"⟩] : List LRow).filter
         (fun f => f.snapshot_id == 1)).Perm ([⟨1, "a", 7, 0, "x"⟩] ++ rest) ∧
       ∀ a ∈ ([⟨1, "a", 7, 0, "x"⟩] : List LRow), ∀ b ∈ rest, b.size ≤ a.size) := by
  have hc : largest_files [⟨1, "a", 7, 0, "x"⟩, ⟨1, "b", 5, 0, "x"⟩] 1 1 [⟨1, "a", 7, 0, "x"⟩] :=
    ⟨[⟨1, "a", 7, 0, "x"⟩, ⟨1, "b", 5, 0, "x"⟩], by decide, by decide, rfl⟩
  exact ⟨hc, largest_files_sorted_topk _ _ _ _ hc⟩

/-! ## Claim C4: duplicate cluster construction -/

theorem mem_dupRawClusters {byFull : List (String × List DupEntry)} {c : DuplicateCluster}
    (h : c ∈ dupRawClusters byFull) :
    ∃ g ∈ byFull, ¬ g.2.length < 2 ∧ c = mkCluster g.1 g.2 := by
  unfold dupRawClusters at h
  suffices H : ∀ acc, c ∈ byFull.foldl
      (fun cl g => if g.2.length < 2 then cl else cl ++ [mkCluster g.1 g.2]) acc →
      c ∈ acc ∨ ∃ g ∈ byFull, ¬ g.2.length < 2 ∧ c = mkCluster g.1 g.2 by
    rcases H [] h with h0 | h1
    · exact absurd h0 (List.not_mem_nil c)
    · exact h1
  clear h
  induction byFull with
  | nil => intro acc h; exact Or.inl h
  | cons g rest ih =>
    intro acc h
    simp only [List.foldl_cons] at h
    by_cases hg : g.2.length < 2
    · rw [if_pos hg] at h
      rcases ih _ h with h0 | ⟨g', hg', hc⟩
      · exact Or.inl h0
      · exact Or.inr ⟨g', List.mem_cons_of_mem _ hg', hc⟩
    · rw [if_neg hg] at h
      rcases ih _ h with h0 | ⟨g', hg', hc⟩
      · rcases List.mem_append.mp h0 with ha | hb
        · exact Or.inl ha
        · rw [List.mem_singleton] at hb
          exact Or.inr ⟨g, List.mem_cons_self g rest, hg, hb⟩
      · exact Or.inr ⟨g', List.mem_cons_of_mem _ hg', hc⟩

theorem mkCluster_spec (digest : String) (grp : List DupEntry) (hlen : 2 ≤ grp.length) :
    ∃ sortedGrp : List DupEntry,
      grp.Perm sortedGrp ∧ sortedGrp.Pairwise memOrd ∧
      sortedGrp.map (·.path) =
        (mkCluster digest grp).keep_path :: (mkCluster digest grp).remove_paths ∧
      (mkCluster digest grp).file_count = grp.length ∧
      (mkCluster digest grp).cluster_id = String.mk (digest.data.take 16) ∧
      (mkCluster digest grp).size_each = (sortedGrp.headD ⟨"", 0, 0⟩).size ∧
      (mkCluster digest grp).potential_waste =
        (mkCluster digest grp).size_each * ((mkCluster digest grp).file_count - 1) := by
  haveI : IsTotal DupEntry memOrd := ⟨memOrd_total⟩
  haveI : IsTrans DupEntry memOrd := ⟨memOrd_trans⟩
  refine ⟨List.insertionSort memOrd grp, (List.perm_insertionSort memOrd grp).symm,
    List.sorted_insertionSort memOrd grp, ?_, ?_, rfl, rfl, rfl⟩
  · have hne : List.insertionSort memOrd grp ≠ [] := by
      intro hnil
      have := (List.perm_insertionSort memOrd grp).length_eq
      rw [hnil] at this
      simp at this
      omega
    cases hgs : List.insertionSort memOrd grp with
    | nil => exact absurd hgs hne
    | cons a t =>
      show (a :: t).map (·.path) =
        ((List.insertionSort memOrd grp).headD ⟨"", 0, 0⟩).path ::
          ((List.insertionSort memOrd grp).tail.map (·.path))
      rw [hgs]
      rfl
  · show (List.insertionSort memOrd grp).length = grp.length
    exact (List.perm_insertionSort memOrd grp).length_eq

/-- Claim C4: every returned duplicate cluster comes from a full-digest
group with at least two members, sorted by (mtime ascending, path
ascending); the keep path is the first member of that sorted order and
the remove paths are the rest in order; the cluster id is the first 16
characters of the digest; the waste is `size_each × (file_count − 1)`;
and the cluster list is sorted by waste descending. -/
theorem find_duplicates_cluster_spec (candidates : List DupEntry) (limit : Nat)
    (headDigest fullDigest : String → Option String) :
    (∀ c ∈ (find_duplicates candidates limit headDigest fullDigest).clusters,
      ∃ digest grp, (digest, grp) ∈ dupByFull candidates limit headDigest fullDigest ∧
        2 ≤ grp.length ∧
        c.cluster_id = String.mk (digest.data.take 16) ∧
        c.file_count = grp.length ∧
        c.potential_waste = c.size_each * (c.file_count - 1) ∧
        ∃ sortedGrp : List DupEntry, grp.Perm sortedGrp ∧ sortedGrp.Pairwise memOrd ∧
          sortedGrp.map (·.path) = c.keep_path :: c.remove_paths ∧
          c.size_each = (sortedGrp.headD ⟨"", 0, 0⟩).size) ∧
    (find_duplicates candidates limit headDigest fullDigest).clusters.Pairwise
      (fun a b => b.potential_waste ≤ a.potential_waste) := by
  constructor
  · intro c hc
    have hc' : c ∈ dupRawClusters (dupByFull candidates limit headDigest fullDigest) := by
      have hperm := List.perm_insertionSort
        (fun a b : DuplicateCluster => b.potential_waste ≤ a.potential_waste)
        (dupRawClusters (dupByFull candidates limit headDigest fullDigest))
      exact hperm.mem_iff.mp hc
    obtain ⟨g, hg, hgl, hceq⟩ := mem_dupRawClusters hc'
    have hlen2 : 2 ≤ g.2.length := by omega
    obtain ⟨sortedGrp, hperm, hsort, hpaths, hcount, hid, hsize, hwaste⟩ :=
      mkCluster_spec g.1 g.2 hlen2
    subst hceq
    exact ⟨g.1, g.2, hg, hlen2, hid, hcount, hwaste, sortedGrp, hperm, hsort, hpaths, hsize⟩
  · haveI : IsTotal DuplicateCluster (fun a b => b.potential_waste ≤ a.potential_waste) :=
      ⟨fun a b => le_total _ _⟩
    haveI : IsTrans DuplicateCluster (fun a b => b.potential_waste ≤ a.potential_waste) :=
      ⟨fun _ _ _ h1 h2 => le_trans h2 h1⟩
    exact List.sorted_insertionSort _ _

/-- Claim C4 witness: the theorem applied to a concrete two-member
duplicate run. -/
theorem find_duplicates_cluster_spec_witness :
    (⟨"deadbeefdeadbeef", 4, 2, 4, "/a/1", ["/b/2"]⟩ : DuplicateCluster) ∈
      (find_duplicates [⟨"/a/1", 4, 3⟩, ⟨"/b/2", 4, 9⟩] 200000
        (fun _ => some "pp") (fun _ => some "deadbeefdeadbeefcafe")).clusters ∧
    (∃ digest grp,
      (digest, grp) ∈ dupByFull [⟨"/a/1", 4, 3⟩, ⟨"/b/2", 4, 9⟩] 200000
        (fun _ => some "pp") (fun _ => some "deadbeefdeadbeefcafe") ∧
      2 ≤ grp.length ∧
      (⟨"deadbeefdeadbeef", 4, 2, 4, "/a/1", ["/b/2"]⟩ : DuplicateCluster).cluster_id =
        String.mk (digest.data.take 16) ∧
      (⟨"deadbeefdeadbeef", 4, 2, 4, "/a/1", ["/b/2"]⟩ : DuplicateCluster).file_count = grp.length ∧
      (⟨"deadbeefdeadbeef", 4, 2, 4, "/a/1", ["/b/2"]⟩ : DuplicateCluster).potential_waste =
        (⟨"deadbeefdeadbeef", 4, 2, 4, "/a/1", ["/b/2"]⟩ : DuplicateCluster).size_each *
          ((⟨"deadbeefdeadbeef", 4, 2, 4, "/a/1", ["/b/2"]⟩ : DuplicateCluster).file_count - 1) ∧
      ∃ sortedGrp : List DupEntry, grp.Perm sortedGrp ∧ sortedGrp.Pairwise memOrd ∧
        sortedGrp.map (·.path) =
          (⟨"deadbeefdeadbeef", 4, 2, 4, "/a/1", ["/b/2"]⟩ : DuplicateCluster).keep_path ::
            (⟨"deadbeefdeadbeef", 4, 2, 4, "/a/1", ["/b/2"]⟩ : DuplicateCluster).remove_paths ∧
        (⟨"deadbeefdeadbeef", 4, 2, 4, "/a/1", ["/b/2"]⟩ : DuplicateCluster).size_each =
          (sortedGrp.headD ⟨"", 0, 0⟩).size) :=
  ⟨by decide,
   (find_duplicates_cluster_spec [⟨"/a/1", 4, 3⟩, ⟨"/b/2", 4, 9⟩] 200000
     (fun _ => some "pp") (fun _ => some "deadbeefdeadbeefcafe")).1
     ⟨"deadbeefdeadbeef", 4, 2, 4, "/a/1", ["/b/2"]⟩ (by decide)⟩

/-! ## Cleanup engine helper lemmas -/

theorem itemsOf_append (a b : List DbWrite) :
    itemsOf (a ++ b) = itemsOf a ++ itemsOf b :=
  List.filterMap_append a b _

theorem manifestsOf_append (a b : List DbWrite) :
    manifestsOf (a ++ b) = manifestsOf a ++ manifestsOf b :=
  List.filterMap_append a b _

theorem actionsOf_append (a b : List DbWrite) :
    actionsOf (a ++ b) = actionsOf a ++ actionsOf b :=
  List.filterMap_append a b _

theorem cleanupRiskBranch_spec (env : CleanupEnv) (qdir aid : String)
    (policy : CleanupPolicy) (rp : String) (risk : RiskAssessment) :
    ∃ i : ItemRow,
      itemsOf (cleanupRiskBranch env qdir aid policy rp risk).1 = [i] ∧
      i.action_id = aid ∧ i.path = rp ∧
      i.status ∈ (["dry-run", "quarantined", "deleted", "skipped", "failed"] : List String) ∧
      (i.status = "quarantined" →
        ∃ m ∈ manifestsOf (cleanupRiskBranch env qdir aid policy rp risk).1,
          m.action_id = aid ∧ m.original_path = rp ∧
          some m.quarantine_path = i.quarantine_path) ∧
      actionsOf (cleanupRiskBranch env qdir aid policy rp risk).1 = [] ∧
      (∀ op ∈ (cleanupRiskBranch env qdir aid policy rp risk).2, op.source = rp) := by
  unfold cleanupRiskBranch
  split
  · exact ⟨_, rfl, rfl, rfl,
      show ("skipped" : String) ∈ _ by decide,
      fun h' => absurd h' (show ("skipped" : String) ≠ "quarantined" by decide), rfl,
      fun op hop => absurd hop (List.not_mem_nil op)⟩
  split
  · exact ⟨_, rfl, rfl, rfl,
      show ("dry-run" : String) ∈ _ by decide,
      fun h' => absurd h' (show ("dry-run" : String) ≠ "quarantined" by decide), rfl,
      fun op hop => absurd hop (List.not_mem_nil op)⟩
  split
  · split
    · exact ⟨_, rfl, rfl, rfl,
        show ("failed" : String) ∈ _ by decide,
        fun h' => absurd h' (show ("failed" : String) ≠ "quarantined" by decide), rfl,
        fun op hop => absurd hop (List.not_mem_nil op)⟩
    · exact ⟨_, rfl, rfl, rfl,
        show ("quarantined" : String) ∈ _ by decide,
        fun _ => ⟨_, List.mem_singleton_self _, rfl, rfl, rfl⟩, rfl,
        fun op hop => by rw [List.mem_singleton] at hop; subst hop; rfl⟩
  · split
    · exact ⟨_, rfl, rfl, rfl,
        show ("failed" : String) ∈ _ by decide,
        fun h' => absurd h' (show ("failed" : String) ≠ "quarantined" by decide), rfl,
        fun op hop => absurd hop (List.not_mem_nil op)⟩
    · exact ⟨_, rfl, rfl, rfl,
        show ("deleted" : String) ∈ _ by decide,
        fun h' => absurd h' (show ("deleted" : String) ≠ "quarantined" by decide), rfl,
        fun op hop => by rw [List.mem_singleton] at hop; subst hop; rfl⟩

theorem cleanupStep_spec (env : CleanupEnv) (qdir aid : String) (policy : CleanupPolicy)
    (roots : List String) (rp : String) :
    ∃ i : ItemRow,
      itemsOf (cleanupStep env qdir aid policy roots rp).1 = [i] ∧
      i.action_id = aid ∧ i.path = rp ∧
      i.status ∈ (["dry-run", "quarantined", "deleted", "skipped", "failed"] : List String) ∧
      (i.status = "quarantined" →
        ∃ m ∈ manifestsOf (cleanupStep env qdir aid policy roots rp).1,
          m.action_id = aid ∧ m.original_path = rp ∧
          some m.quarantine_path = i.quarantine_path) ∧
      actionsOf (cleanupStep env qdir aid policy roots rp).1 = [] ∧
      (∀ op ∈ (cleanupStep env qdir aid policy roots rp).2, op.source = rp) := by
  unfold cleanupStep
  split
  · exact ⟨_, rfl, rfl, rfl,
      show ("skipped" : String) ∈ _ by decide,
      fun h' => absurd h' (show ("skipped" : String) ≠ "quarantined" by decide), rfl,
      fun op hop => absurd hop (List.not_mem_nil op)⟩
  split
  · exact ⟨_, rfl, rfl, rfl,
      show ("skipped" : String) ∈ _ by decide,
      fun h' => absurd h' (show ("skipped" : String) ≠ "quarantined" by decide), rfl,
      fun op hop => absurd hop (List.not_mem_nil op)⟩
  exact cleanupRiskBranch_spec env qdir aid policy rp _

theorem cleanupStep_outside (env : CleanupEnv) (qdir aid : String) (policy : CleanupPolicy)
    (roots : List String) (rp : String)
    (h : ¬ ∃ root ∈ roots, is_subpath rp root = true) :
    cleanupStep env qdir aid policy roots rp =
      ([.itemW ⟨aid, rp, "skipped", "high", 100, "outside_allowed_roots", none, none⟩], []) := by
  have hany : roots.any (fun root => is_subpath rp root) = false := by
    rw [List.any_eq_false]
    intro x hx hsub
    exact h ⟨x, hx, hsub⟩
  simp only [cleanupStep, hany]
  rfl

theorem cleanupStep_critical (env : CleanupEnv) (qdir aid : String) (policy : CleanupPolicy)
    (roots : List String) (rp : String)
    (hin : ∃ root ∈ roots, is_subpath rp root = true)
    (hcrit : rp ∈ CRITICAL_DELETE_PATHS) :
    cleanupStep env qdir aid policy roots rp =
      ([.itemW ⟨aid, rp, "skipped", "high", 100, "critical_path_protection", none, none⟩], []) := by
  have hany : roots.any (fun root => is_subpath rp root) = true := List.any_eq_true.mpr hin
  have hcont : CRITICAL_DELETE_PATHS.contains rp = true := by
    rw [List.contains_eq_any_beq, List.any_eq_true]
    exact ⟨rp, hcrit, by simp⟩
  simp only [cleanupStep, hany, hcont]
  rfl

theorem execute_items_origin (env : CleanupEnv) (qdir aid : String) (sid : Nat)
    (paths : List String) (mode : String) (policy : CleanupPolicy) (roots : List String) :
    ∀ i ∈ itemsOf (execute env qdir aid sid paths mode policy roots).transcript,
      ∃ p ∈ paths, i ∈ itemsOf (cleanupStep env qdir aid policy roots p).1 := by
  intro i hi
  have hmem : i ∈ itemsOf
      ((paths.map (fun p => (cleanupStep env qdir aid policy roots p).1)).flatten) := hi
  clear hi
  induction paths with
  | nil => exact absurd hmem (List.not_mem_nil i)
  | cons p rest ih =>
    rw [List.map_cons, List.flatten_cons, itemsOf_append] at hmem
    rcases List.mem_append.mp hmem with h1 | h2
    · exact ⟨p, List.mem_cons_self p rest, h1⟩
    · obtain ⟨q, hq, hqi⟩ := ih h2
      exact ⟨q, List.mem_cons_of_mem p hq, hqi⟩

theorem execute_ops_origin (env : CleanupEnv) (qdir aid : String) (sid : Nat)
    (paths : List String) (mode : String) (policy : CleanupPolicy) (roots : List String) :
    ∀ op ∈ (execute env qdir aid sid paths mode policy roots).fsOps,
      ∃ p ∈ paths, op ∈ (cleanupStep env qdir aid policy roots p).2 := by
  intro op hop
  have hmem : op ∈ (paths.map (fun p => (cleanupStep env qdir aid policy roots p).2)).flatten :=
    hop
  clear hop
  induction paths with
  | nil => exact absurd hmem (List.not_mem_nil op)
  | cons p rest ih =>
    rw [List.map_cons, List.flatten_cons] at hmem
    rcases List.mem_append.mp hmem with h1 | h2
    · exact ⟨p, List.mem_cons_self p rest, h1⟩
    · obtain ⟨q, hq, hqi⟩ := ih h2
      exact ⟨q, List.mem_cons_of_mem p hq, hqi⟩

theorem execute_flatten_spec (env : CleanupEnv) (qdir aid : String)
    (policy : CleanupPolicy) (roots : List String) : ∀ paths : List String,
    (itemsOf ((paths.map (fun p => (cleanupStep env qdir aid policy roots p).1)).flatten)).map
      (·.path) = paths ∧
    actionsOf ((paths.map (fun p => (cleanupStep env qdir aid policy roots p).1)).flatten) = [] ∧
    (∀ i ∈ itemsOf ((paths.map (fun p => (cleanupStep env qdir aid policy roots p).1)).flatten),
      i.action_id = aid ∧
      i.status ∈ (["dry-run", "quarantined", "deleted", "skipped", "failed"] : List String)) ∧
    (∀ i ∈ itemsOf ((paths.map (fun p => (cleanupStep env qdir aid policy roots p).1)).flatten),
      i.status = "quarantined" →
      ∃ m ∈ manifestsOf ((paths.map (fun p => (cleanupStep env qdir aid policy roots p).1)).flatten),
        m.action_id = i.action_id ∧ m.original_path = i.path ∧
        some m.quarantine_path = i.quarantine_path) := by
  intro paths
  induction paths with
  | nil =>
    refine ⟨rfl, rfl, ?_, ?_⟩
    · intro i hi; exact absurd hi (List.not_mem_nil i)
    · intro i hi; exact absurd hi (List.not_mem_nil i)
  | cons p rest ih =>
    obtain ⟨i0, hitems, hiaid, hipath, histat, himan, hact, _⟩ :=
      cleanupStep_spec env qdir aid policy roots p
    obtain ⟨ih1, ih2, ih3, ih4⟩ := ih
    rw [List.map_cons, List.flatten_cons]
    refine ⟨?_, ?_, ?_, ?_⟩
    · rw [itemsOf_append, List.map_append, hitems, ih1]
      simp only [List.map_cons, List.map_nil, hipath, List.singleton_append]
    · rw [actionsOf_append, hact, ih2]
      rfl
    · intro i hi
      rw [itemsOf_append] at hi
      rcases List.mem_append.mp hi with h1 | h2
      · rw [hitems, List.mem_singleton] at h1
        subst h1
        exact ⟨hiaid, histat⟩
      · exact ih3 i h2
    · intro i hi hq
      rw [itemsOf_append] at hi
      rw [manifestsOf_append]
      rcases List.mem_append.mp hi with h1 | h2
      · rw [hitems, List.mem_singleton] at h1
        subst h1
        obtain ⟨m, hm, hmaid, hmorig, hmq⟩ := himan hq
        exact ⟨m, List.mem_append_left _ hm, hmaid.trans hiaid.symm,
          hmorig.trans hipath.symm, hmq⟩
      · obtain ⟨m, hm, hmaid, hmorig, hmq⟩ := ih4 i h2 hq
        exact ⟨m, List.mem_append_right _ hm, hmaid, hmorig, hmq⟩

/-! ## Claim C9: audit rows of one execute call -/

/-- Claim C9: every `execute` call writes exactly one action row, first;
then exactly one item row per input target, in order, each with a
status among dry-run / quarantined / deleted / skipped / failed; and
every quarantined item has a manifest row of the same action mapping
the original path to a non-null quarantine path. -/
theorem cleanup_execute_audit (env : CleanupEnv) (qdir aid : String) (sid : Nat)
    (paths : List String) (mode : String) (policy : CleanupPolicy) (roots : List String) :
    (execute env qdir aid sid paths mode policy roots).transcript.head? =
      some (.actionW ⟨aid, sid, mode, policy.dry_run⟩) ∧
    actionsOf (execute env qdir aid sid paths mode policy roots).transcript =
      [⟨aid, sid, mode, policy.dry_run⟩] ∧
    (itemsOf (execute env qdir aid sid paths mode policy roots).transcript).map (·.path) =
      paths ∧
    (∀ i ∈ itemsOf (execute env qdir aid sid paths mode policy roots).transcript,
      i.action_id = aid ∧
      i.status ∈ (["dry-run", "quarantined", "deleted", "skipped", "failed"] : List String)) ∧
    (∀ i ∈ itemsOf (execute env qdir aid sid paths mode policy roots).transcript,
      i.status = "quarantined" →
      ∃ m ∈ manifestsOf (execute env qdir aid sid paths mode policy roots).transcript,
        m.action_id = i.action_id ∧ m.original_path = i.path ∧
        some m.quarantine_path = i.quarantine_path) := by
  obtain ⟨h1, h2, h3, h4⟩ := execute_flatten_spec env qdir aid policy roots paths
  refine ⟨rfl, ?_, h1, h3, h4⟩
  show ActionRow.mk aid sid mode policy.dry_run ::
    actionsOf ((paths.map (fun p => (cleanupStep env qdir aid policy roots p).1)).flatten) = _
  rw [h2]

/-- Claim C9 witness: a concrete non-dry-run quarantining execution. -/
theorem cleanup_execute_audit_witness :
    (execute envTriv "/q" "a1" 1 ["/home/u/x.tmp"] "path-list"
      ⟨false, false, true, true⟩ ["/home/u"]).transcript.head? =
      some (.actionW ⟨"a1", 1, "path-list", false⟩) ∧
    actionsOf (execute envTriv "/q" "a1" 1 ["/home/u/x.tmp"] "path-list"
      ⟨false, false, true, true⟩ ["/home/u"]).transcript = [⟨"a1", 1, "path-list", false⟩] ∧
    (itemsOf (execute envTriv "/q" "a1" 1 ["/home/u/x.tmp"] "path-list"
      ⟨false, false, true, true⟩ ["/home/u"]).transcript).map (·.path) = ["/home/u/x.tmp"] ∧
    (∀ i ∈ itemsOf (execute envTriv "/q" "a1" 1 ["/home/u/x.tmp"] "path-list"
      ⟨false, false, true, true⟩ ["/home/u"]).transcript,
      i.action_id = "a1" ∧
      i.status ∈ (["dry-run", "quarantined", "deleted", "skipped", "failed"] : List String)) ∧
    (∀ i ∈ itemsOf (execute envTriv "/q" "a1" 1 ["/home/u/x.tmp"] "path-list"
      ⟨false, false, true, true⟩ ["/home/u"]).transcript,
      i.status = "quarantined" →
      ∃ m ∈ manifestsOf (execute envTriv "/q" "a1" 1 ["/home/u/x.tmp"] "path-list"
        ⟨false, false, true, true⟩ ["/home/u"]).transcript,
        m.action_id = i.action_id ∧ m.original_path = i.path ∧
        some m.quarantine_path = i.quarantine_path) :=
  cleanup_execute_audit envTriv "/q" "a1" 1 ["/home/u/x.tmp"] "path-list"
    ⟨false, false, true, true⟩ ["/home/u"]

theorem execute_items_fixed (env : CleanupEnv) (qdir aid : String) (sid : Nat)
    (paths : List String) (mode : String) (policy : CleanupPolicy) (roots : List String)
    (rp : String) (i0 : ItemRow)
    (hstep : cleanupStep env qdir aid policy roots rp = ([.itemW i0], []))
    (hpath0 : i0.path = rp) :
    ∀ i ∈ itemsOf (execute env qdir aid sid paths mode policy roots).transcript,
      i.path = rp → i = i0 := by
  intro i hi hpath
  obtain ⟨p, _, hmem⟩ := execute_items_origin env qdir aid sid paths mode policy roots i hi
  obtain ⟨j, hitems, _, hjpath, _, _, _, _⟩ := cleanupStep_spec env qdir aid policy roots p
  rw [hitems, List.mem_singleton] at hmem
  subst hmem
  have hpq : p = rp := by rw [← hjpath, hpath]
  subst hpq
  rw [hstep] at hitems
  have h2 : i0 = i := by injection hitems
  exact h2.symm

theorem execute_ops_avoid (env : CleanupEnv) (qdir aid : String) (sid : Nat)
    (paths : List String) (mode : String) (policy : CleanupPolicy) (roots : List String)
    (rp : String)
    (hstep2 : (cleanupStep env qdir aid policy roots rp).2 = []) :
    ∀ op ∈ (execute env qdir aid sid paths mode policy roots).fsOps, op.source ≠ rp := by
  intro op hop heq
  obtain ⟨p, _, hmem⟩ := execute_ops_origin env qdir aid sid paths mode policy roots op hop
  obtain ⟨_, _, _, _, _, _, _, hops⟩ := cleanupStep_spec env qdir aid policy roots p
  have hpq : p = rp := by rw [← hops op hmem, heq]
  subst hpq
  rw [hstep2] at hmem
  exact absurd hmem (List.not_mem_nil op)

/-! ## Claim C1: allowed roots and protected paths -/

/-- Claim C1: in every `execute` call, a target whose canonical path is
outside every allowed root, and a target whose canonical path equals a
protected path (even inside an allowed root), is recorded `skipped` and
no filesystem operation is performed on it. -/
theorem cleanup_execute_protected_skipped (env : CleanupEnv) (qdir aid : String) (sid : Nat)
    (paths : List String) (mode : String) (policy : CleanupPolicy) (roots : List String)
    (rp : String) (_hmem : rp ∈ paths)
    (hrej : (¬ ∃ root ∈ roots, is_subpath rp root = true) ∨ rp ∈ CRITICAL_DELETE_PATHS) :
    (∀ i ∈ itemsOf (execute env qdir aid sid paths mode policy roots).transcript,
      i.path = rp → i.status = "skipped") ∧
    (∀ op ∈ (execute env qdir aid sid paths mode policy roots).fsOps, op.source ≠ rp) := by
  have hskip :
      cleanupStep env qdir aid policy roots rp =
        ([.itemW ⟨aid, rp, "skipped", "high", 100, "outside_allowed_roots", none, none⟩], []) ∨
      cleanupStep env qdir aid policy roots rp =
        ([.itemW ⟨aid, rp, "skipped", "high", 100, "critical_path_protection", none, none⟩], []) := by
    rcases hrej with hout | hcrit
    · exact Or.inl (cleanupStep_outside env qdir aid policy roots rp hout)
    · by_cases hin : ∃ root ∈ roots, is_subpath rp root = true
      · exact Or.inr (cleanupStep_critical env qdir aid policy roots rp hin hcrit)
      · exact Or.inl (cleanupStep_outside env qdir aid policy roots rp hin)
  constructor
  · intro i hi hpath
    rcases hskip with he | he
    · rw [execute_items_fixed env qdir aid sid paths mode policy roots rp _ he rfl i hi hpath]
    · rw [execute_items_fixed env qdir aid sid paths mode policy roots rp _ he rfl i hi hpath]
  · rcases hskip with he | he
    · exact execute_ops_avoid env qdir aid sid paths mode policy roots rp (by rw [he])
    · exact execute_ops_avoid env qdir aid sid paths mode policy roots rp (by rw [he])

/-- Claim C1 witness: `/etc` is inside the allowed root `/etc` but is a
protected path; `/home/u/x` is outside the allowed root `/etc`.  Both
end skipped with no filesystem operation. -/
theorem cleanup_execute_protected_skipped_witness :
    ("/etc" ∈ (["/etc", "/home/u/x"] : List String)) ∧
    ("/etc" ∈ CRITICAL_DELETE_PATHS) ∧
    ((∀ i ∈ itemsOf (execute envTriv "/q" "a1" 1 ["/etc", "/home/u/x"] "path-list"
        ⟨false, false, true, true⟩ ["/etc"]).transcript,
      i.path = "/etc" → i.status = "skipped") ∧
     (∀ op ∈ (execute envTriv "/q" "a1" 1 ["/etc", "/home/u/x"] "path-list"
        ⟨false, false, true, true⟩ ["/etc"]).fsOps, op.source ≠ "/etc")) :=
  ⟨by decide, by decide,
   cleanup_execute_protected_skipped envTriv "/q" "a1" 1 ["/etc", "/home/u/x"] "path-list"
     ⟨false, false, true, true⟩ ["/etc"] "/etc" (by decide) (Or.inr (by decide))⟩

/-! ## Claim C10: fixed risk values on skipped targets -/

/-- Claim C10: a target skipped for being outside the allowed roots is
recorded with the fixed values status `skipped`, level `high`, score
100, reason `outside_allowed_roots`; a protected target inside the
roots gets the same fixed values with reason
`critical_path_protection`.  These constants do not come from the risk
scorer: the final conjunct shows a concrete target whose assessed risk
is score 0 / level `low` while its recorded row carries 100 / `high`. -/
theorem cleanup_skip_records_fixed_risk :
    (∀ (env : CleanupEnv) (qdir aid : String) (sid : Nat) (paths : List String)
       (mode : String) (policy : CleanupPolicy) (roots : List String) (rp : String),
      rp ∈ paths → (¬ ∃ root ∈ roots, is_subpath rp root = true) →
      ∀ i ∈ itemsOf (execute env qdir aid sid paths mode policy roots).transcript,
        i.path = rp →
          i.status = "skipped" ∧ i.risk_level = "high" ∧ i.risk_score = 100 ∧
          i.reason = "outside_allowed_roots") ∧
    (∀ (env : CleanupEnv) (qdir aid : String) (sid : Nat) (paths : List String)
       (mode : String) (policy : CleanupPolicy) (roots : List String) (rp : String),
      rp ∈ paths → (∃ root ∈ roots, is_subpath rp root = true) →
      rp ∈ CRITICAL_DELETE_PATHS →
      ∀ i ∈ itemsOf (execute env qdir aid sid paths mode policy roots).transcript,
        i.path = rp →
          i.status = "skipped" ∧ i.risk_level = "high" ∧ i.risk_score = 100 ∧
          i.reason = "critical_path_protection") ∧
    ((assess "/home/u/junk.tmp" "other" false).score = 0 ∧
     (assess "/home/u/junk.tmp" "other" false).level = "low" ∧
     targetMeta envTriv "/home/u/junk.tmp" = ("other", false) ∧
     itemsOf (execute envTriv "/q" "a1" 1 ["/home/u/junk.tmp"] "path-list" polDefault
       ["/srv"]).transcript =
       [⟨"a1", "/home/u/junk.tmp", "skipped", "high", 100, "outside_allowed_roots",
         none, none⟩]) := by
  refine ⟨?_, ?_, by decide, by decide, by decide, by decide⟩
  · intro env qdir aid sid paths mode policy roots rp _ hout i hi hpath
    rw [execute_items_fixed env qdir aid sid paths mode policy roots rp _
      (cleanupStep_outside env qdir aid policy roots rp hout) rfl i hi hpath]
    exact ⟨rfl, rfl, rfl, rfl⟩
  · intro env qdir aid sid paths mode policy roots rp _ hin hcrit i hi hpath
    rw [execute_items_fixed env qdir aid sid paths mode policy roots rp _
      (cleanupStep_critical env qdir aid policy roots rp hin hcrit) rfl i hi hpath]
    exact ⟨rfl, rfl, rfl, rfl⟩

/-- Claim C10 witness: the fixed-value clause applied at a concrete
out-of-roots target. -/
theorem cleanup_skip_records_fixed_risk_witness :
    ("/home/u/junk.tmp" ∈ (["/home/u/junk.tmp"] : List String)) ∧
    (¬ ∃ root ∈ (["/srv"] : List String), is_subpath "/home/u/junk.tmp" root = true) ∧
    (∀ i ∈ itemsOf (execute envTriv "/q" "a1" 1 ["/home/u/junk.tmp"] "path-list" polDefault
        ["/srv"]).transcript,
      i.path = "/home/u/junk.tmp" →
        i.status = "skipped" ∧ i.risk_level = "high" ∧ i.risk_score = 100 ∧
        i.reason = "outside_allowed_roots") :=
  ⟨by decide, by decide,
   cleanup_skip_records_fixed_risk.1 envTriv "/q" "a1" 1 ["/home/u/junk.tmp"] "path-list"
     polDefault ["/srv"] "/home/u/junk.tmp" (by decide) (by decide)⟩

/-! ## Claim C6: scan root validation -/

/-- Claim C6 counterexample: with a non-directory root present, the
scan is not rejected — it proceeds over the remaining root and writes
its file row; and a protected root (`/etc`) is scanned rather than
rejected. -/
theorem engine_scan_no_rejection_cex :
    fsC6.isdir "/nodir" = false ∧
    (engine_scan fsC6 ["/nodir", "/d"] false true 1 10).rows ≠ [] ∧
    (engine_scan fsC6 ["/nodir", "/d"] false true 1 10).total_files = 1 ∧
    ("/etc" ∈ CRITICAL_DELETE_PATHS) ∧ fsC6.isdir "/etc" = true ∧
    (engine_scan fsC6 ["/etc"] false true 2 10).rows ≠ [] := by decide

/-- Claim C6 (amended): `Engine.scan` performs no root validation.
Roots that are not directories are silently dropped and the scan
proceeds over the remaining roots (the result is identical to a scan
requested on the filtered root list); a root that is a directory is
always accepted, protected paths included. -/
theorem engine_scan_no_validation (fs : ScanFS) (roots : List String)
    (fsym inc : Bool) (sid fuel : Nat) :
    engine_scan fs roots fsym inc sid fuel =
      engine_scan fs (roots.filter fs.isdir) fsym inc sid fuel ∧
    (engine_scan fs roots fsym inc sid fuel).roots = roots.filter fs.isdir ∧
    (∀ r ∈ roots, fs.isdir r = true → r ∈ (engine_scan fs roots fsym inc sid fuel).roots) := by
  refine ⟨?_, rfl, ?_⟩
  · unfold engine_scan scan_to_store
    simp [List.filter_filter]
  · intro r hr hd
    show r ∈ roots.filter fs.isdir
    exact List.mem_filter.mpr ⟨hr, hd⟩

/-- Claim C6 amended-theorem witness at a concrete filesystem. -/
theorem engine_scan_no_validation_witness :
    fsC6.isdir "/d" = true ∧ "/d" ∈ (["/nodir", "/d"] : List String) ∧
    "/d" ∈ (engine_scan fsC6 ["/nodir", "/d"] false true 1 10).roots :=
  ⟨by decide, by decide,
   (engine_scan_no_validation fsC6 ["/nodir", "/d"] false true 1 10).2.2 "/d"
     (by decide) (by decide)⟩
